import Mathlib

/-!
Shallow embedding of the voidvoice core audio pipeline
(crates/core/src/processor.rs, frame_adapter.rs, echo_cancel.rs).

Samples are modelled as rationals (exact arithmetic standing in for `f32`;
NaN/infinity corner cases are outside the model).  Third-party engines that
the spec treats as opaque frame transformers (nnnoiseless denoiser, webrtc
VAD, aec3 echo engine, trigonometric coefficient derivation, `sqrt`,
`sin`/`cos` of the crossfade ramp) are abstracted as function parameters
bundled in the `Engines` structure; everything written in the repository
itself is translated directly.

Rust panics (out-of-bounds indexing, `copy_from_slice` length mismatch) are
modelled by functions returning `Option`, `none` meaning a panic.
-/

set_option maxRecDepth 200000

/-- Shared constant: sample rate (crates: constants.rs, `SAMPLE_RATE = 48000`). -/
def SAMPLE_RATE : ℕ := 48000

/-- Shared constant: frame size (constants.rs, `FRAME_SIZE = 480`, 10 ms at 48 kHz). -/
def FRAME_SIZE : ℕ := 480

/-- Gate attack time in milliseconds (processor.rs `ATTACK_MS`). -/
def ATTACK_MS : ℕ := 5

/-- Gate release time in milliseconds (processor.rs `RELEASE_MS`). -/
def RELEASE_MS : ℕ := 200

/-- Gate fade time in milliseconds (processor.rs `FADE_MS`). -/
def FADE_MS : ℕ := 10

/-- Samples of sustained signal needed before the gate opens
(`(SAMPLE_RATE / 1000) * ATTACK_MS` in `process_frame`). -/
def attackSamples : ℕ := (SAMPLE_RATE / 1000) * ATTACK_MS

/-- Samples of sustained silence needed before the gate closes
(`(SAMPLE_RATE / 1000) * RELEASE_MS` in `process_frame`). -/
def releaseSamples : ℕ := (SAMPLE_RATE / 1000) * RELEASE_MS

/-- Length of the closing fade in samples (`(SAMPLE_RATE / 1000) * FADE_MS`). -/
def fadeSamples : ℕ := (SAMPLE_RATE / 1000) * FADE_MS

/-- Rust `f32::clamp(lo, hi)` (for `lo ≤ hi`, NaN excluded by the rational model). -/
def clampQ (x lo hi : ℚ) : ℚ := max lo (min x hi)

/-- Rust `f32::abs` (spelled out so the model evaluates by kernel
reduction). -/
def absQ (x : ℚ) : ℚ := if x < 0 then -x else x

/-- Normalise a buffer written by an opaque engine to the fixed 480-sample
frame the Rust side uses (`[f32; FRAME_SIZE]` buffers are always exactly
480 samples long; the engines write them in place). -/
def toFrame (l : List ℚ) : List ℚ :=
  l.take FRAME_SIZE ++ List.replicate (FRAME_SIZE - l.length) 0

/-- Rust `(x * 32767.0).clamp(-32768.0, 32767.0) as i16`: clamp then truncate
toward zero. -/
def ratToI16 (q : ℚ) : ℤ :=
  let c := clampQ (q * 32767) (-32768) 32767
  if 0 ≤ c then ⌊c⌋ else -⌊-c⌋

/-- Tracks minimum RMS over a sliding window to estimate the noise floor
(processor.rs `NoiseFloorTracker`): a 300-entry ring buffer of per-frame RMS
values plus a smoothed floor estimate. -/
structure NoiseFloorTracker where
  window : List ℚ
  write_idx : ℕ
  count : ℕ
  current_floor : ℚ
deriving DecidableEq

/-- `NoiseFloorTracker::new()`. -/
def NoiseFloorTracker.new : NoiseFloorTracker :=
  ⟨List.replicate 300 0, 0, 0, 1/100⟩

/-- `NoiseFloorTracker::update(rms)`: write into the ring, advance the index,
then blend the minimum of the last 30 qualifying entries (those above 0.0001)
into the floor with weights 0.95 / 0.05.  The running `min_val` (initialised
to `f32::MAX` in Rust) is modelled as an `Option ℚ`, `none` meaning no
qualifying entry was seen. -/
def NoiseFloorTracker.update (t : NoiseFloorTracker) (rms : ℚ) : NoiseFloorTracker :=
  let window := t.window.set t.write_idx rms
  let write_idx := (t.write_idx + 1) % 300
  let count := if t.count < 300 then t.count + 1 else t.count
  if 10 ≤ count then
    let start := if 30 ≤ count then (write_idx + 300 - 30) % 300 else 0
    let minV := (List.range (min 30 count)).foldl
      (fun m i =>
        let v := window.getD ((start + i) % 300) 0
        match m with
        | none => if 1/10000 < v then some v else none
        | some mv => if 1/10000 < v ∧ v < mv then some v else some mv)
      none
    match minV with
    | some mv => ⟨window, write_idx, count, t.current_floor * (19/20) + mv * (1/20)⟩
    | none => ⟨window, write_idx, count, t.current_floor⟩
  else
    ⟨window, write_idx, count, t.current_floor⟩

/-- `NoiseFloorTracker::floor()`. -/
def NoiseFloorTracker.floorEst (t : NoiseFloorTracker) : ℚ := t.current_floor

/-- Normalised biquad filter coefficients (the `biquad` crate's
`Coefficients<f32>`). -/
structure BiquadCoeffs where
  b0 : ℚ
  b1 : ℚ
  b2 : ℚ
  a1 : ℚ
  a2 : ℚ
deriving DecidableEq

/-- A `DirectForm2Transposed<f32>` filter: coefficients plus the two delay
state cells. -/
structure DF2T where
  coeffs : BiquadCoeffs
  s1 : ℚ
  s2 : ℚ
deriving DecidableEq

/-- `DirectForm2Transposed::new(coeffs)`: zeroed delay state. -/
def DF2T.new (c : BiquadCoeffs) : DF2T := ⟨c, 0, 0⟩

/-- One step of the direct-form-2-transposed recurrence (`Biquad::run`). -/
def DF2T.run (f : DF2T) (x : ℚ) : DF2T × ℚ :=
  let y := f.coeffs.b0 * x + f.s1
  (⟨f.coeffs, f.coeffs.b1 * x - f.coeffs.a1 * y + f.s2, f.coeffs.b2 * x - f.coeffs.a2 * y⟩, y)

/-- `Biquad::update_coefficients`: replace the coefficients, keep the state. -/
def DF2T.updateCoefficients (f : DF2T) (c : BiquadCoeffs) : DF2T := ⟨c, f.s1, f.s2⟩

/-- The coefficient derivations `Coefficients::from_params` for the three fixed
filter shapes (low shelf 200 Hz, peaking 1 kHz, high shelf 4 kHz), abstracted:
each maps a dB gain to coefficients, `none` modelling `Err`.  The derivation
itself uses transcendental functions and lives in the `biquad` crate. -/
structure EqCoeffFns where
  low : ℚ → Option BiquadCoeffs
  mid : ℚ → Option BiquadCoeffs
  high : ℚ → Option BiquadCoeffs

/-- Three-band equalizer (processor.rs `ThreeBandEq`): cascaded low shelf,
peaking and high shelf biquads. -/
structure ThreeBandEq where
  low_shelf : DF2T
  peaking : DF2T
  high_shelf : DF2T
deriving DecidableEq

/-- `ThreeBandEq::new(low, mid, high)`: derive all three coefficient sets
(failing if any derivation fails, in source order) and build zero-state
filters. -/
def ThreeBandEq.new (C : EqCoeffFns) (l m h : ℚ) : Option ThreeBandEq :=
  match C.low l with
  | none => none
  | some cl =>
    match C.mid m with
    | none => none
    | some cm =>
      match C.high h with
      | none => none
      | some ch => some ⟨DF2T.new cl, DF2T.new cm, DF2T.new ch⟩

/-- `ThreeBandEq::process(sample)`: run serially through the three stages. -/
def ThreeBandEq.process (e : ThreeBandEq) (x : ℚ) : ThreeBandEq × ℚ :=
  let rl := e.low_shelf.run x
  let rm := e.peaking.run rl.2
  let rh := e.high_shelf.run rm.2
  (⟨rl.1, rm.1, rh.1⟩, rh.2)

/-- `ThreeBandEq::update_gains`: recompute coefficients in place, stopping at
the first failed derivation (earlier stages stay updated, matching the `?`
early returns). -/
def ThreeBandEq.updateGains (C : EqCoeffFns) (e : ThreeBandEq) (l m h : ℚ) :
    ThreeBandEq × Bool :=
  match C.low l with
  | none => (e, false)
  | some cl =>
    let e1 : ThreeBandEq := ⟨e.low_shelf.updateCoefficients cl, e.peaking, e.high_shelf⟩
    match C.mid m with
    | none => (e1, false)
    | some cm =>
      let e2 : ThreeBandEq := ⟨e1.low_shelf, e1.peaking.updateCoefficients cm, e1.high_shelf⟩
      match C.high h with
      | none => (e2, false)
      | some ch =>
        (⟨e2.low_shelf, e2.peaking, e2.high_shelf.updateCoefficients ch⟩, true)

/-- Run one 480-sample channel through the equalizer, threading the filter
state (the per-sample loop `*sample = eq.process(*sample)`). -/
def eqRunFrame (e : ThreeBandEq) : List ℚ → ThreeBandEq × List ℚ
  | [] => (e, [])
  | x :: xs =>
    let r := e.process x
    let rest := eqRunFrame r.1 xs
    (rest.1, r.2 :: rest.2)

/-- Simple lookahead limiter for AGC (processor.rs `LookaheadLimiter`). -/
structure LookaheadLimiter where
  target_level : ℚ
  current_gain : ℚ
  attack_coeff : ℚ
  release_coeff : ℚ
deriving DecidableEq

/-- `LookaheadLimiter::new(target)`. -/
def LookaheadLimiter.new (target : ℚ) : LookaheadLimiter := ⟨target, 1, 1/10, 1/200⟩

/-- Per-index maximum absolute sample across channels (`sample_max` in the
limiter's linked analysis loop; starts from `0.0`). -/
def sampleMax (frames : List (List ℚ)) (k : ℕ) : ℚ :=
  frames.foldl (fun m ch => max m (absQ (ch.getD k 0))) 0

/-- `LookaheadLimiter::process_frame`: linked RMS analysis over the per-index
channel maxima, asymmetric gain smoothing, then gain application with a hard
clamp of every sample to `[-0.99, 0.99]`.  Empty channel sets return
unchanged.  `sqrtQ` abstracts `f32::sqrt`. -/
def LookaheadLimiter.processFrame (sqrtQ : ℚ → ℚ) (L : LookaheadLimiter)
    (frames : List (List ℚ)) : LookaheadLimiter × List (List ℚ) :=
  match frames with
  | [] => (L, [])
  | f0 :: _ =>
    let frameLen := f0.length
    let sumSq := ((List.range frameLen).map (fun k => sampleMax frames k * sampleMax frames k)).sum
    let maxRms := sqrtQ (sumSq / (frameLen : ℚ))
    let gain :=
      if 1/10000 < maxRms then
        let err := L.target_level / maxRms
        let target := if err < 1 then err else min err 3
        if target < L.current_gain then
          L.current_gain + (target - L.current_gain) * L.attack_coeff
        else
          L.current_gain + (target - L.current_gain) * L.release_coeff
      else if 1 < L.current_gain then L.current_gain - 1/1000
      else L.current_gain
    (⟨L.target_level, gain, L.attack_coeff, L.release_coeff⟩,
      frames.map (fun ch => ch.map (fun s => clampQ (s * gain) (-(99/100)) (99/100))))

/-- Gate state: the four scalar fields of `VoidProcessor` that the gate
decision block (processor.rs lines 532-551) reads and writes. -/
structure GateSt where
  gate_open : Bool
  samples_since_close : ℕ
  samples_since_open : ℕ
  fade_position : ℕ
deriving DecidableEq

/-- The per-frame gate decision (processor.rs lines 536-551): if the frame is
above threshold or speech, accumulate attack progress and (re)open the gate
once `attackSamples` are reached, resetting the release counter and the fade;
otherwise reset attack progress and, if open, accumulate release progress and
close once it exceeds `releaseSamples`. -/
def gateUpdate (g : GateSt) (rms eff : ℚ) (isSpeech : Bool) : GateSt :=
  if eff < rms ∨ isSpeech then
    let ssc := g.samples_since_close + FRAME_SIZE
    if attackSamples ≤ ssc then
      ⟨true, ssc, 0, 0⟩
    else
      ⟨g.gate_open, ssc, g.samples_since_open, g.fade_position⟩
  else
    if g.gate_open then
      let sso := g.samples_since_open + FRAME_SIZE
      if releaseSamples < sso then
        ⟨false, 0, sso, g.fade_position⟩
      else
        ⟨true, 0, sso, g.fade_position⟩
    else
      ⟨g.gate_open, 0, g.samples_since_open, g.fade_position⟩

/-- Iterate the gate decision over a list of per-frame analysis results
`(rms, effective threshold, speech flag)`. -/
def gateRun (g : GateSt) (frames : List (ℚ × ℚ × Bool)) : GateSt :=
  frames.foldl (fun s f => gateUpdate s f.1 f.2.1 f.2.2) g

/-- Bypass state machine states (processor.rs `BypassState`). -/
inductive BypassState where
  | Active
  | Bypassed
  | FadingOut
  | FadingIn
deriving DecidableEq

/-- The opaque third-party engines the processor drives, abstracted as pure
functions over explicit state types: the nnnoiseless denoiser (`D`), the
webrtc VAD (`V`), the aec3 echo engine (`A`), plus the transcendental
helpers (`sqrt`, the crossfade `cos`/`sin` as functions of the integer ramp
position, and the EQ coefficient derivations). -/
structure Engines (D V A : Type) where
  denoiseNew : D
  denoiseRun : D → List ℚ → D × List ℚ
  vadNew : Fin 4 → V
  vadRun : V → List ℤ → V × Option Bool
  aecNew : Option A
  aecRun : A → List ℚ → List ℚ → A × Option (List ℚ)
  sqrtQ : ℚ → ℚ
  xfCos : ℕ → ℚ
  xfSin : ℕ → ℚ
  eqc : EqCoeffFns

/-- Echo canceller wrapper state (echo_cancel.rs `EchoCanceller`): the aec3
engine handle.  The pre-allocated `output_buffer` is cleared and rewritten on
every call before being read, so it carries no observable state. -/
def EchoCanceller.processFrame {D V A : Type} (E : Engines D V A) (a : A)
    (micInput speakerRef output : List ℚ) : Option (A × List ℚ × Bool) :=
  match E.aecRun a micInput speakerRef with
  | (a2, some buf) =>
    if output.length = FRAME_SIZE then some (a2, toFrame buf, true) else none
  | (a2, none) =>
    if output.length = micInput.length then some (a2, micInput, false) else none

/-- `EchoCanceller::reset()`: rebuild the engine; on failure keep the old
engine and report `false`. -/
def EchoCanceller.reset {D V A : Type} (E : Engines D V A) (a : A) : A × Bool :=
  match E.aecNew with
  | some a0 => (a0, true)
  | none => (a, false)

/-- The echo-cancellation step inside the processor's per-channel loop:
`aec_instance.process_frame(&temp_input, ref_ch, &mut aec_output)` followed by
`temp_input.copy_from_slice(&aec_output)`.  Both buffers are fixed 480-sample
arrays, so neither copy can panic; on engine error the mic frame passes
through unchanged. -/
def aecApply {D V A : Type} (E : Engines D V A) (a : A) (mic refCh : List ℚ) :
    A × List ℚ :=
  match E.aecRun a mic refCh with
  | (a2, some buf) => (a2, toFrame buf)
  | (a2, none) => (a2, mic)

/-- The processor state (processor.rs `VoidProcessor`).  The shared atomic
control cells are modelled as plain fields: process_updates/process_frame are
the only code running here, and between two calls with "unchanged atomic
values" the cells behave exactly like plain state.  Float cells stored as bit
patterns (`to_bits`/`from_bits`) round-trip exactly and are modelled as the
rational they encode.  The spectrum scratch buffers and the outbound
snapshot channel perform no processor-visible state change other than the
frame counter, which is kept; `jitter_ewma_us` is never accessed in
processor.rs and is omitted. -/
structure VoidProcessor (D V A : Type) where
  denoise : List D
  echo_canceller : List A
  eq : List ThreeBandEq
  agc_limiter : LookaheadLimiter
  noise_floor_tracker : NoiseFloorTracker
  vad_instances : Fin 4 → V
  channels : ℕ
  gate_open : Bool
  samples_since_close : ℕ
  samples_since_open : ℕ
  fade_position : ℕ
  bypass_state : BypassState
  crossfade_pos : ℕ
  calibration_samples : List ℚ
  current_vad_mode : ℤ
  current_eq_enabled : Bool
  current_agc_enabled : Bool
  current_eq_low : ℚ
  current_eq_mid : ℚ
  current_eq_high : ℚ
  volume_level : ℚ
  calibration_mode : Bool
  calibration_result : ℚ
  vad_sensitivity : ℤ
  eq_low_gain : ℚ
  eq_mid_gain : ℚ
  eq_high_gain : ℚ
  eq_enabled : Bool
  agc_enabled : Bool
  agc_target : ℚ
  bypass_enabled : Bool
  gate_threshold : ℚ
  suppression_strength : ℚ
  dynamic_threshold_enabled : Bool
  spectrum_frame_counter : ℕ

/-- `VoidProcessor::new(channels, vad_sensitivity, eq_params, agc_target,
echo_cancel_enabled)`: per-channel engine instances (the echo canceller only
when enabled and when the aec3 builder succeeds; the EQ only when coefficient
derivation succeeds), default gate/bypass state, and the initial values of
every control cell. -/
def VoidProcessor.new {D V A : Type} (E : Engines D V A) (channels : ℕ)
    (vadSens : ℤ) (eqLow eqMid eqHigh agcTarget : ℚ) (echoEnabled : Bool) :
    VoidProcessor D V A where
  denoise := List.replicate channels E.denoiseNew
  echo_canceller :=
    if echoEnabled then
      match E.aecNew with
      | some a => List.replicate channels a
      | none => []
    else []
  eq :=
    match ThreeBandEq.new E.eqc eqLow eqMid eqHigh with
    | some e => List.replicate channels e
    | none => []
  agc_limiter := LookaheadLimiter.new agcTarget
  noise_floor_tracker := NoiseFloorTracker.new
  vad_instances := E.vadNew
  channels := channels
  gate_open := false
  samples_since_close := 0
  samples_since_open := 0
  fade_position := 0
  bypass_state := BypassState.Active
  crossfade_pos := 0
  calibration_samples := []
  current_vad_mode := vadSens
  current_eq_enabled := true
  current_agc_enabled := false
  current_eq_low := eqLow
  current_eq_mid := eqMid
  current_eq_high := eqHigh
  volume_level := 0
  calibration_mode := false
  calibration_result := 0
  vad_sensitivity := vadSens
  eq_low_gain := eqLow
  eq_mid_gain := eqMid
  eq_high_gain := eqHigh
  eq_enabled := true
  agc_enabled := false
  agc_target := agcTarget
  bypass_enabled := false
  gate_threshold := 3/200
  suppression_strength := 1
  dynamic_threshold_enabled := false
  spectrum_frame_counter := 0

/-- `i32::clamp(0, 3)`. -/
def clampI (x lo hi : ℤ) : ℤ := max lo (min x hi)

/-- `VoidProcessor::process_updates` — VAD sensitivity reconciliation. -/
def updVad {D V A : Type} (p : VoidProcessor D V A) : VoidProcessor D V A :=
  if p.vad_sensitivity ≠ p.current_vad_mode then
    { p with current_vad_mode := clampI p.vad_sensitivity 0 3 }
  else p

/-- `VoidProcessor::process_updates` — EQ gain reconciliation: when the EQ
chain exists and any gain moved by more than 0.01, cache the new gains and
recompute every channel's filter coefficients (failures ignored). -/
def updEqGains {D V A : Type} (E : Engines D V A) (p : VoidProcessor D V A) :
    VoidProcessor D V A :=
  if p.eq.isEmpty then p
  else
    if 1/100 < absQ (p.eq_low_gain - p.current_eq_low) ∨
        1/100 < absQ (p.eq_mid_gain - p.current_eq_mid) ∨
        1/100 < absQ (p.eq_high_gain - p.current_eq_high) then
      { p with
        current_eq_low := p.eq_low_gain
        current_eq_mid := p.eq_mid_gain
        current_eq_high := p.eq_high_gain
        eq := p.eq.map (fun e =>
          (ThreeBandEq.updateGains E.eqc e p.eq_low_gain p.eq_mid_gain p.eq_high_gain).1) }
    else p

/-- `VoidProcessor::process_updates` — bypass toggle: a requested bypass from
`Active` starts `FadingOut`, a released bypass from `Bypassed` starts
`FadingIn`; in either case the crossfade position resets. -/
def updBypass {D V A : Type} (p : VoidProcessor D V A) : VoidProcessor D V A :=
  match p.bypass_state, p.bypass_enabled with
  | BypassState.Active, true =>
    { p with bypass_state := BypassState.FadingOut, crossfade_pos := 0 }
  | BypassState.Bypassed, false =>
    { p with bypass_state := BypassState.FadingIn, crossfade_pos := 0 }
  | _, _ => p

/-- `VoidProcessor::process_updates` — cache EQ/AGC enabled flags. -/
def updFlags {D V A : Type} (p : VoidProcessor D V A) : VoidProcessor D V A :=
  { p with current_eq_enabled := p.eq_enabled, current_agc_enabled := p.agc_enabled }

/-- `VoidProcessor::process_updates` — AGC target reconciliation. -/
def updAgcTarget {D V A : Type} (p : VoidProcessor D V A) : VoidProcessor D V A :=
  if 1/100 < absQ (p.agc_target - p.agc_limiter.target_level) then
    { p with agc_limiter := { p.agc_limiter with target_level := p.agc_target } }
  else p

/-- `VoidProcessor::process_updates`: reconcile the locally cached settings
against the shared control cells, in source order. -/
def processUpdates {D V A : Type} (E : Engines D V A) (p : VoidProcessor D V A) :
    VoidProcessor D V A :=
  updAgcTarget (updFlags (updBypass (updEqGains E (updVad p))))

/-- Cons an updated engine state back onto the processed tail when the
original list had an entry for this channel (the in-place `get_mut(i)`
update of the per-channel engine vectors). -/
def consIf {X : Type} (orig : List X) (newHead : Option X) (tail : List X) : List X :=
  match orig, newHead with
  | _ :: _, some x => x :: tail
  | _ :: _, none => tail
  | [], _ => tail

/-- Reference-channel selection for channel `i`:
`refs.get(i).or_else(|| refs.first())` when references were supplied. -/
def refChOf (refs : Option (List (List ℚ))) (i : ℕ) : Option (List ℚ) :=
  match refs with
  | none => none
  | some rs => (rs.get? i).orElse (fun _ => rs.head?)

/-- The echo-cancellation sub-step of the per-channel stage: run the channel's
echo canceller (when one exists and a reference channel is available) over
the temp buffer, else pass the buffer through. -/
def ecStep {D V A : Type} (E : Engines D V A) (aOpt : Option A)
    (refCh : Option (List ℚ)) (input : List ℚ) : Option A × List ℚ :=
  match aOpt, refCh with
  | some a, some rc =>
    let r := aecApply E a input rc
    (some r.1, r.2)
  | some a, none => (some a, input)
  | none, _ => (none, input)

/-- The denoise sub-step of the per-channel stage: run the channel's
denoiser into the (fixed 480-sample) output buffer; when no denoiser exists
the output buffer keeps its previous contents. -/
def dnStep {D V A : Type} (E : Engines D V A) (dOpt : Option D)
    (temp outInit : List ℚ) : Option D × List ℚ :=
  match dOpt with
  | some d =>
    let r := E.denoiseRun d temp
    (some r.1, toFrame r.2)
  | none => (none, outInit)

/-- The per-channel stage of `process_frame` (processor.rs lines 440-472),
one channel: copy the input into the fixed temp buffer (panics — `none` —
unless the slice is exactly 480 samples), optionally echo-cancel against the
matching (or first) reference channel, denoise into the output buffer
(requiring the 480-sample output buffer contract), then blend
`temp*(1-s) + denoised*s`. -/
def chanStep {D V A : Type} (E : Engines D V A) (supp : ℚ) (i : ℕ)
    (refs : Option (List (List ℚ))) (input outInit : List ℚ)
    (dOpt : Option D) (aOpt : Option A) :
    Option (List ℚ × Option D × Option A) :=
  if input.length = FRAME_SIZE then
    let ec := ecStep E aOpt (refChOf refs i) input
    if outInit.length = FRAME_SIZE then
      let dn := dnStep E dOpt ec.2 outInit
      some (List.zipWith (fun t o => t * (1 - supp) + o * supp) ec.2 dn.2, dn.1, ec.1)
    else none
  else none

/-- The per-channel loop of `process_frame` over all channels, threading the
denoiser and echo-canceller state vectors; `i` is the running channel index
(used only to pick the reference channel). -/
def perChannels {D V A : Type} (E : Engines D V A) (supp : ℚ)
    (refs : Option (List (List ℚ))) :
    ℕ → List (List ℚ) → List (List ℚ) → List D → List A →
    Option (List (List ℚ) × List D × List A)
  | _, [], _, ds, as => some ([], ds, as)
  | _, _ :: _, [], ds, as => some ([], ds, as)
  | i, inCh :: ins, outCh :: outs, ds, as =>
    match chanStep E supp i refs inCh outCh ds.head? as.head? with
    | none => none
    | some (blended, dNew, aNew) =>
      match perChannels E supp refs (i + 1) ins outs ds.tail as.tail with
      | none => none
      | some (rOuts, rDs, rAs) =>
        some (blended :: rOuts, consIf ds dNew rDs, consIf as aNew rAs)

/-- The normalized mono mix (processor.rs lines 437-478): sum the blended
channels sample-wise, then scale by `1/channels`. -/
def monoMixOf (channels : ℕ) (outs : List (List ℚ)) : List ℚ :=
  (outs.foldl (fun acc ch => List.zipWith (· + ·) acc ch)
      (List.replicate FRAME_SIZE 0)).map (fun s => s * (1 / (channels : ℚ)))

/-- Frame RMS of the mono mix (`(Σ x²/FRAME_SIZE).sqrt`). -/
def rmsOf (sqrtQ : ℚ → ℚ) (mono : List ℚ) : ℚ :=
  sqrtQ ((mono.map (fun x => x * x)).sum / (FRAME_SIZE : ℚ))

/-- Calibration duration in frames: `SAMPLE_RATE * 3 / FRAME_SIZE` = 300
(~3 s of 10 ms frames). -/
def calibrationFrames : ℕ := SAMPLE_RATE * 3 / FRAME_SIZE

/-- Clamped VAD variant index `current_vad_mode.clamp(0, 3)`. -/
def vadIndex (m : ℤ) : Fin 4 :=
  ⟨(clampI m 0 3).toNat, by simp only [clampI]; omega⟩

/-- The closing fade applied to one channel while the gate is closed
(processor.rs lines 558-570): sample `j` sees fade position
`fade_position + j` while that is still inside the fade window, and silence
afterwards. -/
def applyFade (fp : ℕ) (ch : List ℚ) : List ℚ :=
  List.zipWith
    (fun j s => if fp + j < fadeSamples then s * (1 - ((fp + j : ℕ) : ℚ) / (fadeSamples : ℚ)) else 0)
    (List.range ch.length) ch

/-- Final value of the per-channel `local_fade` counter after a channel of
`len` samples: it advances once per sample while below `fadeSamples`. -/
def fadeFinal (fp len : ℕ) : ℕ :=
  if fp ≤ fadeSamples then min (fp + len) fadeSamples else fp

/-- Stage 4 of `process_frame` (lines 553-580): per channel, apply the
closing fade when the gate is closed, then the equalizer when enabled and
present, threading the EQ filter states; also returns the final fade counter
(`final_fade`, the last channel's `local_fade`, or `fp` if there are no
channels). -/
def applyGateEq (gateOpen eqEnabled : Bool) (fp : ℕ) :
    List ThreeBandEq → List (List ℚ) → List (List ℚ) × List ThreeBandEq × ℕ
  | eqs, [] => ([], eqs, fp)
  | eqs, ch :: chs =>
    let gated := if gateOpen then ch else applyFade fp ch
    let r : ThreeBandEq × List ℚ :=
      match eqEnabled, eqs.head? with
      | true, some e => eqRunFrame e gated
      | _, _ => (eqs.headD (ThreeBandEq.mk (DF2T.new ⟨0,0,0,0,0⟩) (DF2T.new ⟨0,0,0,0,0⟩) (DF2T.new ⟨0,0,0,0,0⟩)), gated)
    let rest := applyGateEq gateOpen eqEnabled fp eqs.tail chs
    let ffHere := if gateOpen then fp else fadeFinal fp ch.length
    let ffOut := if chs.isEmpty then ffHere else rest.2.2
    ((if eqEnabled then r.2 else gated) :: rest.1,
      consIf eqs (if eqEnabled ∧ (eqs.head?).isSome then some r.1 else eqs.head?) rest.2.1,
      ffOut)

/-- The crossfade ramp position seen at loop iteration `j` when it starts at
`cp`: the counter advances once per sample while below the 480-sample window
(closed form of the `if t_start < crossfade_len { t_start += 1 }` loop). -/
def tAt (cp j : ℕ) : ℕ :=
  if cp < 480 then min (cp + j) 480 else cp

/-- Equal-power crossfade application (processor.rs lines 599-612 and
619-632): sample `j` of each channel becomes
`processed*gainWet(t) + raw*gainDry(t)` with `t = tAt cp j`. -/
def xfadeApply (cp : ℕ) (gainWet gainDry : ℕ → ℚ)
    (ins outs : List (List ℚ)) : List (List ℚ) :=
  List.zipWith
    (fun inC outC =>
      (List.range FRAME_SIZE).map
        (fun j => outC.getD j 0 * gainWet (tAt cp j) + inC.getD j 0 * gainDry (tAt cp j)))
    ins outs

/-- Spectrum throttle counter step (lines 642-645): increment, wrapping to 0
at 4. -/
def spectrumTick (c : ℕ) : ℕ :=
  if 4 ≤ c + 1 then 0 else c + 1

/-- The dynamic gate threshold derived from the noise floor tracker
(`floor().mul_add(1.5, 0.003)` clamped to `[0.005, 0.08]`). -/
def effectiveThreshold (t : NoiseFloorTracker) : ℚ :=
  clampQ (t.floorEst * (3/2) + 3/1000) (1/200) (2/25)

/-- Steps 4-6 of `process_frame` (the `_` arm of the bypass match, lines
490-593): publish the mono RMS as the volume reading, run the one-shot
calibration accumulator, derive the effective gate threshold (updating the
noise-floor tracker only in dynamic mode), run the VAD on the 16-bit mono
mix, take the gate decision, apply fade/EQ per channel and linked AGC. -/
def analysisStage {D V A : Type} (E : Engines D V A) (p : VoidProcessor D V A)
    (mono : List ℚ) (outs : List (List ℚ)) (thr : ℚ) (dyn : Bool) :
    VoidProcessor D V A × List (List ℚ) :=
  let rms := rmsOf E.sqrtQ mono
  let p1 := { p with volume_level := rms }
  let p2 :=
    if p1.calibration_mode then
      let samples := p1.calibration_samples ++ [rms]
      if calibrationFrames ≤ samples.length then
        { p1 with
          calibration_result := max (samples.foldl max 0 * (6/5)) (1/200)
          calibration_mode := false
          calibration_samples := [] }
      else { p1 with calibration_samples := samples }
    else p1
  let nft2 := if dyn then p2.noise_floor_tracker.update rms else p2.noise_floor_tracker
  let eff := if dyn then effectiveThreshold nft2 else thr
  let p3 := { p2 with noise_floor_tracker := nft2 }
  let vadBuf := mono.map ratToI16
  let vi := vadIndex p3.current_vad_mode
  let vr := E.vadRun (p3.vad_instances vi) vadBuf
  let isSpeech := vr.2.getD false
  let p4 := { p3 with vad_instances := Function.update p3.vad_instances vi vr.1 }
  let g := gateUpdate ⟨p4.gate_open, p4.samples_since_close, p4.samples_since_open,
    p4.fade_position⟩ rms eff isSpeech
  let r := applyGateEq g.gate_open p4.current_eq_enabled g.fade_position p4.eq outs
  let p5 := { p4 with
    gate_open := g.gate_open
    samples_since_close := g.samples_since_close
    samples_since_open := g.samples_since_open
    eq := r.2.1
    fade_position := if g.gate_open then 0 else r.2.2 }
  if p5.current_agc_enabled then
    let ra := LookaheadLimiter.processFrame E.sqrtQ p5.agc_limiter r.1
    ({ p5 with agc_limiter := ra.1 }, ra.2)
  else (p5, r.1)

/-- Step 7 of `process_frame` (lines 596-639): the bypass crossfade.  While
fading, blend processed and raw signal with the equal-power gains and advance
the ramp; when the 480-sample window is exhausted the state machine reaches
its terminal state. -/
def xfadeStage {D V A : Type} (E : Engines D V A) (p : VoidProcessor D V A)
    (ins outs : List (List ℚ)) : VoidProcessor D V A × List (List ℚ) :=
  match p.bypass_state with
  | BypassState.FadingOut =>
    let outs2 := xfadeApply p.crossfade_pos E.xfCos E.xfSin ins outs
    let cp2 := tAt p.crossfade_pos FRAME_SIZE
    ({ p with
      crossfade_pos := cp2
      bypass_state := if 480 ≤ cp2 then BypassState.Bypassed else BypassState.FadingOut },
      outs2)
  | BypassState.FadingIn =>
    let outs2 := xfadeApply p.crossfade_pos E.xfSin E.xfCos ins outs
    let cp2 := tAt p.crossfade_pos FRAME_SIZE
    ({ p with
      crossfade_pos := cp2
      bypass_state := if 480 ≤ cp2 then BypassState.Active else BypassState.FadingIn },
      outs2)
  | _ => (p, outs)

/-- `VoidProcessor::process_frame`: validate the channel shape (silence and
early return on mismatch, touching no other state), run the per-channel
echo-cancel/denoise/blend stage, short-circuit to a raw copy when fully
bypassed, otherwise run analysis/gate/EQ/AGC on the processed signal, then
apply the bypass crossfade and advance the spectrum throttle counter.
`none` models a panic. -/
def processFrame {D V A : Type} (E : Engines D V A) (p : VoidProcessor D V A)
    (inputs outputs : List (List ℚ)) (refs : Option (List (List ℚ)))
    (supp thr : ℚ) (dyn : Bool) : Option (VoidProcessor D V A × List (List ℚ)) :=
  if inputs.length ≠ p.channels ∨ outputs.length ≠ p.channels then
    some (p, outputs.map (fun ch => List.replicate ch.length 0))
  else
    match perChannels E supp refs 0 inputs outputs p.denoise p.echo_canceller with
    | none => none
    | some (outs1, ds2, as2) =>
      let pA := { p with denoise := ds2, echo_canceller := as2 }
      let mono := monoMixOf p.channels outs1
      let mid : VoidProcessor D V A × List (List ℚ) :=
        match pA.bypass_state with
        | BypassState.Bypassed => (pA, inputs)
        | _ => analysisStage E pA mono outs1 thr dyn
      let xf := xfadeStage E mid.1 inputs mid.2
      some ({ xf.1 with spectrum_frame_counter := spectrumTick xf.1.spectrum_frame_counter },
        xf.2)

/-- A bounded SPSC ring buffer (the `ringbuf::HeapRb<f32>` used by
`FrameAdapter`), modelled as a FIFO list (oldest first) with a fixed
capacity; `try_push` drops the sample when full. -/
structure HeapRb where
  cap : ℕ
  data : List ℚ
deriving DecidableEq

/-- `Observer::occupied_len()`. -/
def HeapRb.occupied (rb : HeapRb) : ℕ := rb.data.length

/-- `Producer::try_push`: append unless full (the pushed value is silently
dropped when the buffer is full — the `let _ =` in the adapter). -/
def HeapRb.tryPush (rb : HeapRb) (x : ℚ) : HeapRb :=
  if rb.data.length < rb.cap then ⟨rb.cap, rb.data ++ [x]⟩ else rb

/-- A sequence of `try_push` calls. -/
def HeapRb.pushList (rb : HeapRb) (xs : List ℚ) : HeapRb :=
  xs.foldl HeapRb.tryPush rb

/-- Interleave two channels into the push order of
`push_stereo_interleaved` (pairs up to the shorter length, `left[i]` then
`right[i]`). -/
def interleave : List ℚ → List ℚ → List ℚ
  | a :: as2, b :: bs => a :: b :: interleave as2 bs
  | _, _ => []

/-- Split an interleaved buffer back into (left, right) — the frame-fill
loop `left_in[j] = pop; right_in[j] = pop`. -/
def deinterleave : List ℚ → List ℚ × List ℚ
  | [] => ([], [])
  | [x] => ([x], [])
  | x :: y :: rest =>
    let r := deinterleave rest
    (x :: r.1, y :: r.2)

/-- frame_adapter.rs `FrameAdapter`: input and output ring buffers sized
`FRAME_SIZE * 4 * 2` plus the four fixed 480-sample scratch frames. -/
structure FrameAdapter where
  rb_in : HeapRb
  rb_out : HeapRb
  left_in : List ℚ
  right_in : List ℚ
  left_out : List ℚ
  right_out : List ℚ

/-- `FrameAdapter::new()`: empty ring buffers of capacity 3840, zeroed
scratch frames. -/
def FrameAdapter.new : FrameAdapter :=
  ⟨⟨FRAME_SIZE * 4 * 2, []⟩, ⟨FRAME_SIZE * 4 * 2, []⟩,
    List.replicate FRAME_SIZE 0, List.replicate FRAME_SIZE 0,
    List.replicate FRAME_SIZE 0, List.replicate FRAME_SIZE 0⟩

/-- `FrameAdapter::push_stereo_interleaved(left, right)`. -/
def FrameAdapter.pushStereoInterleaved (a : FrameAdapter) (left right : List ℚ) :
    FrameAdapter :=
  { a with rb_in := a.rb_in.pushList (interleave left right) }

/-- `FrameAdapter::push_mono(mono)`: each sample duplicated to both
channels. -/
def FrameAdapter.pushMono (a : FrameAdapter) (mono : List ℚ) : FrameAdapter :=
  { a with rb_in := a.rb_in.pushList (interleave mono mono) }

/-- The `while occupied >= FRAME_SIZE * 2` loop of
`FrameAdapter::process_available`, with explicit fuel (each iteration
consumes 960 samples, so `rb_in.occupied` bounds the iteration count and is
always a sufficient fuel). -/
def processAvailLoop {D V A : Type} (E : Engines D V A) (supp thr : ℚ) (dyn : Bool) :
    ℕ → FrameAdapter → VoidProcessor D V A →
    Option (FrameAdapter × VoidProcessor D V A)
  | 0, a, p => some (a, p)
  | fuel + 1, a, p =>
    if FRAME_SIZE * 2 ≤ a.rb_in.occupied then
      let popped := a.rb_in.data.take (FRAME_SIZE * 2)
      let rbIn2 : HeapRb := ⟨a.rb_in.cap, a.rb_in.data.drop (FRAME_SIZE * 2)⟩
      let lr := deinterleave popped
      match processFrame E p [lr.1, lr.2] [a.left_out, a.right_out] none supp thr dyn with
      | none => none
      | some (p2, outs) =>
        let lo := outs.getD 0 []
        let ro := outs.getD 1 []
        let rbOut2 := a.rb_out.pushList (interleave lo ro)
        processAvailLoop E supp thr dyn fuel ⟨rbIn2, rbOut2, lr.1, lr.2, lo, ro⟩ p2
    else some (a, p)

/-- `FrameAdapter::process_available(processor, suppression, threshold,
dynamic_threshold)`. -/
def FrameAdapter.processAvailable {D V A : Type} (E : Engines D V A)
    (a : FrameAdapter) (p : VoidProcessor D V A) (supp thr : ℚ) (dyn : Bool) :
    Option (FrameAdapter × VoidProcessor D V A) :=
  processAvailLoop E supp thr dyn a.rb_in.occupied a p

/-- The loop of `FrameAdapter::pop_stereo`: for each requested index pop a
pair when at least two samples are buffered (counting it), else zero-fill. -/
def popStereoLoop : ℕ → HeapRb → HeapRb × List ℚ × List ℚ × ℕ
  | 0, rb => (rb, [], [], 0)
  | n + 1, rb =>
    if 2 ≤ rb.data.length then
      let l := rb.data.getD 0 0
      let r := rb.data.getD 1 0
      let rest := popStereoLoop n ⟨rb.cap, rb.data.drop 2⟩
      (rest.1, l :: rest.2.1, r :: rest.2.2.1, rest.2.2.2 + 1)
    else
      let rest := popStereoLoop n rb
      (rest.1, 0 :: rest.2.1, 0 :: rest.2.2.1, rest.2.2.2)

/-- `FrameAdapter::pop_stereo(left, right)` with buffers of common length
`len`; returns the drained adapter, the written buffers and the number of
sample pairs actually popped. -/
def FrameAdapter.popStereo (a : FrameAdapter) (len : ℕ) :
    FrameAdapter × List ℚ × List ℚ × ℕ :=
  let r := popStereoLoop len a.rb_out
  ({ a with rb_out := r.1 }, r.2.1, r.2.2.1, r.2.2.2)

/-- A concrete, fully computable engine bundle used to evaluate the model on
closed inputs: trivial engine states, a denoiser that passes audio through,
a VAD that never reports speech, an aec3 engine whose builder fails and
whose processing always errors, `sqrt` as the identity, zero crossfade
gains, and failing EQ coefficient derivations. -/
def engU : Engines Unit Unit Unit where
  denoiseNew := ()
  denoiseRun := fun _ l => ((), l)
  vadNew := fun _ => ()
  vadRun := fun _ _ => ((), some false)
  aecNew := none
  aecRun := fun a _ _ => (a, none)
  sqrtQ := id
  xfCos := fun _ => 0
  xfSin := fun _ => 0
  eqc := ⟨fun _ => none, fun _ => none, fun _ => none⟩

/-- A concrete processor built by `VoidProcessor::new` over `engU`: stereo,
VAD sensitivity 2, flat EQ, AGC target 0.7, echo cancellation disabled. -/
def procU2 : VoidProcessor Unit Unit Unit :=
  VoidProcessor.new engU 2 2 0 0 0 (7/10) false

/-- A mono variant of `procU2`. -/
def procU1 : VoidProcessor Unit Unit Unit :=
  VoidProcessor.new engU 1 2 0 0 0 (7/10) false

/-! ## Theorems -/

lemma frameSize_eq : FRAME_SIZE = 480 := rfl

lemma attackSamples_eq : attackSamples = 240 := rfl

lemma releaseSamples_eq : releaseSamples = 9600 := rfl

lemma fadeSamples_eq : fadeSamples = 480 := rfl

lemma clampQ_bounds (x lo hi : ℚ) (h : lo ≤ hi) :
    lo ≤ clampQ x lo hi ∧ clampQ x lo hi ≤ hi := by
  refine ⟨le_max_left _ _, max_le h ?_⟩
  exact min_le_right _ _

/-- C1: a call to `process_frame` whose input or output channel count differs
from the configured channel count returns the unchanged processor state
together with every output channel replaced by a same-length all-zero
channel: silence out, no state consulted or advanced, no panic (the result
is `some`), no out-of-bounds access. -/
theorem c1_channel_mismatch_silence {D V A : Type} (E : Engines D V A)
    (p : VoidProcessor D V A) (inputs outputs : List (List ℚ))
    (refs : Option (List (List ℚ))) (supp thr : ℚ) (dyn : Bool)
    (h : inputs.length ≠ p.channels ∨ outputs.length ≠ p.channels) :
    processFrame E p inputs outputs refs supp thr dyn =
      some (p, outputs.map (fun ch => List.replicate ch.length 0)) ∧
    ∀ ch ∈ outputs.map (fun ch => List.replicate ch.length (0 : ℚ)), ∀ s ∈ ch, s = 0 := by
  constructor
  · unfold processFrame
    rw [if_pos h]
  · intro ch hch s hs
    obtain ⟨ch0, _, rfl⟩ := List.mem_map.mp hch
    exact List.eq_of_mem_replicate hs

/-- Witness for C1 at a concrete input: a stereo-configured processor given a
single input channel. -/
theorem c1_channel_mismatch_silence_witness :
    (([List.replicate 480 (0:ℚ)].length ≠ procU2.channels ∨
        [List.replicate 480 (0:ℚ)].length ≠ procU2.channels)) ∧
    (processFrame engU procU2 [List.replicate 480 0] [List.replicate 480 0] none 1 (3/200) false =
        some (procU2, [List.replicate 480 (0:ℚ)].map (fun ch => List.replicate ch.length 0)) ∧
      ∀ ch ∈ [List.replicate 480 (0:ℚ)].map (fun ch => List.replicate ch.length (0 : ℚ)),
        ∀ s ∈ ch, s = 0) :=
  ⟨by decide,
    c1_channel_mismatch_silence engU procU2 [List.replicate 480 0] [List.replicate 480 0]
      none 1 (3/200) false (by decide)⟩

lemma chanStep_none_of_bad {D V A : Type} (E : Engines D V A) (supp : ℚ) (i : ℕ)
    (refs : Option (List (List ℚ))) (input outInit : List ℚ)
    (dOpt : Option D) (aOpt : Option A)
    (h : input.length ≠ FRAME_SIZE ∨ outInit.length ≠ FRAME_SIZE) :
    chanStep E supp i refs input outInit dOpt aOpt = none := by
  unfold chanStep
  rcases h with h | h
  · rw [if_neg h]
  · by_cases hin : input.length = FRAME_SIZE
    · rw [if_pos hin, if_neg h]
    · rw [if_neg hin]

lemma perChannels_none_of_bad {D V A : Type} (E : Engines D V A) (supp : ℚ)
    (refs : Option (List (List ℚ))) :
    ∀ (k i0 : ℕ) (ins outs : List (List ℚ)) (ds : List D) (as2 : List A),
      k < ins.length → k < outs.length →
      ((ins.getD k []).length ≠ FRAME_SIZE ∨ (outs.getD k []).length ≠ FRAME_SIZE) →
      perChannels E supp refs i0 ins outs ds as2 = none := by
  intro k
  induction k with
  | zero =>
    intro i0 ins outs ds as2 hin hout hbad
    match ins, outs with
    | inCh :: ins', outCh :: outs' =>
      unfold perChannels
      rw [chanStep_none_of_bad E supp i0 refs inCh outCh _ _ (by simpa using hbad)]
  | succ k ih =>
    intro i0 ins outs ds as2 hin hout hbad
    match ins, outs with
    | inCh :: ins', outCh :: outs' =>
      unfold perChannels
      rcases h : chanStep E supp i0 refs inCh outCh ds.head? as2.head? with _ | ⟨⟨blended, dNew, aNew⟩⟩
      · rfl
      · rw [ih (i0 + 1) ins' outs' ds.tail as2.tail (by simpa using hin)
          (by simpa using hout) (by simpa using hbad)]

/-- C2: when the channel counts do match but some supplied channel buffer is
not exactly 480 samples long, `process_frame` panics (`none`): the
silence-fallback path exists only for channel-count mismatches, never for
frame-length mismatches. -/
theorem c2_wrong_frame_length_panics {D V A : Type} (E : Engines D V A)
    (p : VoidProcessor D V A) (inputs outputs : List (List ℚ))
    (refs : Option (List (List ℚ))) (supp thr : ℚ) (dyn : Bool)
    (hin : inputs.length = p.channels) (hout : outputs.length = p.channels)
    (i : ℕ) (hi : i < p.channels)
    (hbad : (inputs.getD i []).length ≠ FRAME_SIZE ∨ (outputs.getD i []).length ≠ FRAME_SIZE) :
    processFrame E p inputs outputs refs supp thr dyn = none := by
  unfold processFrame
  rw [if_neg (by push_neg; exact ⟨hin, hout⟩)]
  rw [perChannels_none_of_bad E supp refs i 0 inputs outputs p.denoise p.echo_canceller
    (hin ▸ hi) (hout ▸ hi) hbad]

/-- Witness for C2: a mono processor fed a 479-sample input channel. -/
theorem c2_wrong_frame_length_panics_witness :
    ([List.replicate 479 (0:ℚ)].length = procU1.channels ∧
      [List.replicate 480 (0:ℚ)].length = procU1.channels ∧ 0 < procU1.channels ∧
      (([List.replicate 479 (0:ℚ)].getD 0 []).length ≠ FRAME_SIZE ∨
        ([List.replicate 480 (0:ℚ)].getD 0 []).length ≠ FRAME_SIZE)) ∧
    processFrame engU procU1 [List.replicate 479 0] [List.replicate 480 0] none 1 (3/200) false =
      none :=
  ⟨⟨by decide, by decide, by decide, by decide⟩,
    c2_wrong_frame_length_panics engU procU1 [List.replicate 479 0] [List.replicate 480 0]
      none 1 (3/200) false (by decide) (by decide) 0 (by decide) (by decide)⟩

/-- C5: every sample written by `LookaheadLimiter::process_frame` lies in
`[-0.99, 0.99]`, for every limiter state (hence for any number of consecutive
frames), every input, every channel and every sample index: the final hard
clamp bounds the output regardless of the gain. -/
theorem c5_limiter_output_clamped (sqrtQ : ℚ → ℚ) (L : LookaheadLimiter)
    (frames : List (List ℚ)) (ch : List ℚ) (s : ℚ)
    (hch : ch ∈ (LookaheadLimiter.processFrame sqrtQ L frames).2)
    (hs : s ∈ ch) : -(99/100) ≤ s ∧ s ≤ 99/100 := by
  match frames with
  | [] =>
    simp only [LookaheadLimiter.processFrame] at hch
    exact absurd hch (List.not_mem_nil ch)
  | f0 :: rest =>
    simp only [LookaheadLimiter.processFrame] at hch
    obtain ⟨ch0, _, rfl⟩ := List.mem_map.mp hch
    obtain ⟨s0, _, rfl⟩ := List.mem_map.mp hs
    exact clampQ_bounds _ _ _ (by norm_num)

/-- Witness for C5: one full-scale sample through a fresh limiter ends up at
exactly the clamp ceiling 0.99. -/
theorem c5_limiter_output_clamped_witness :
    ([(99:ℚ)/100] ∈ (LookaheadLimiter.processFrame id (LookaheadLimiter.new (7/10)) [[2]]).2 ∧
      (99:ℚ)/100 ∈ [(99:ℚ)/100]) ∧
    (-((99:ℚ)/100) ≤ 99/100 ∧ (99:ℚ)/100 ≤ 99/100) :=
  ⟨⟨by with_unfolding_all decide, by with_unfolding_all decide⟩,
    c5_limiter_output_clamped id (LookaheadLimiter.new (7/10)) [[2]] [(99:ℚ)/100] ((99:ℚ)/100)
      (by with_unfolding_all decide) (by with_unfolding_all decide)⟩

/-- C9: when the aec3 engine reports an error, `EchoCanceller::process_frame`
copies the mic input into the output buffer unchanged and returns `false`
without panicking (given the caller's equal-length output buffer, as the
processor always supplies); and when re-initialization fails,
`EchoCanceller::reset` returns `false` and leaves the prior engine state
untouched. -/
theorem c9_echo_error_passthrough {D V A : Type} (E : Engines D V A) (a a2 : A)
    (mic ref output : List ℚ)
    (herr : E.aecRun a mic ref = (a2, none))
    (hlen : output.length = mic.length) :
    EchoCanceller.processFrame E a mic ref output = some (a2, mic, false) ∧
    (E.aecNew = none → EchoCanceller.reset E a = (a, false)) := by
  constructor
  · unfold EchoCanceller.processFrame
    rw [herr]
    exact if_pos hlen
  · intro hnew
    unfold EchoCanceller.reset
    rw [hnew]

/-- Witness for C9 over the concrete failing engine bundle. -/
theorem c9_echo_error_passthrough_witness :
    (engU.aecRun () (List.replicate 480 (0:ℚ)) (List.replicate 480 0) = ((), none) ∧
      (List.replicate 480 (0:ℚ)).length = (List.replicate 480 (0:ℚ)).length) ∧
    (EchoCanceller.processFrame engU () (List.replicate 480 0) (List.replicate 480 0)
        (List.replicate 480 0) = some ((), List.replicate 480 0, false) ∧
      (engU.aecNew = none → EchoCanceller.reset engU () = ((), false))) :=
  ⟨⟨by decide, by decide⟩,
    c9_echo_error_passthrough engU () () (List.replicate 480 0) (List.replicate 480 0)
      (List.replicate 480 0) (by decide) (by decide)⟩

lemma gateRun_subthreshold (L : List (ℚ × ℚ × Bool))
    (hL : ∀ f ∈ L, ¬(f.2.1 < f.1 ∨ f.2.2 = true)) :
    ∀ (c s fp : ℕ), s + FRAME_SIZE * L.length ≤ releaseSamples →
      gateRun ⟨true, c, s, fp⟩ L =
        ⟨true, if L.isEmpty then c else 0, s + FRAME_SIZE * L.length, fp⟩ := by
  induction L with
  | nil => intro c s fp _; simp [gateRun]
  | cons f L ih =>
    intro c s fp h
    have hf := hL f (List.mem_cons_self f L)
    have hrest : ∀ g ∈ L, ¬(g.2.1 < g.1 ∨ g.2.2 = true) :=
      fun g hg => hL g (List.mem_cons_of_mem f hg)
    have hstep : gateUpdate ⟨true, c, s, fp⟩ f.1 f.2.1 f.2.2 =
        ⟨true, 0, s + FRAME_SIZE, fp⟩ := by
      unfold gateUpdate
      rw [if_neg hf, if_pos rfl, if_neg (by
        simp only [List.length_cons, releaseSamples_eq, frameSize_eq] at h ⊢
        omega)]
    have h2 : (s + FRAME_SIZE) + FRAME_SIZE * L.length ≤ releaseSamples := by
      simp only [List.length_cons, releaseSamples_eq, frameSize_eq] at h ⊢
      omega
    calc gateRun ⟨true, c, s, fp⟩ (f :: L)
        = gateRun ⟨true, 0, s + FRAME_SIZE, fp⟩ L := by
          simp only [gateRun, List.foldl_cons, hstep]
      _ = ⟨true, if L.isEmpty then 0 else 0, (s + FRAME_SIZE) + FRAME_SIZE * L.length, fp⟩ :=
          ih hrest 0 (s + FRAME_SIZE) fp h2
      _ = ⟨true, if (f :: L).isEmpty then c else 0, s + FRAME_SIZE * (f :: L).length, fp⟩ := by
          simp only [List.isEmpty_cons, if_neg, ite_self, List.length_cons]
          congr 1
          ring

/-- C4: gate hysteresis.  After any frame whose analysis is above threshold
or speech (which always (re)opens the gate, resetting the release counter),
any run of at most 20 consecutive sub-threshold frames (≤ 200 ms) leaves the
gate open — in particular one quiet frame never closes it — while a run of
21 such frames (210 ms, i.e. the 200 ms release time reached within one
10 ms frame) closes it. -/
theorem c4_gate_hysteresis (g : GateSt) (rms eff : ℚ) (sp : Bool)
    (hcond : eff < rms ∨ sp = true) :
    (gateUpdate g rms eff sp).gate_open = true ∧
    (gateUpdate g rms eff sp).samples_since_open = 0 ∧
    (∀ L : List (ℚ × ℚ × Bool), (∀ f ∈ L, ¬(f.2.1 < f.1 ∨ f.2.2 = true)) →
      (L.length ≤ 20 → (gateRun (gateUpdate g rms eff sp) L).gate_open = true) ∧
      (L.length = 21 → (gateRun (gateUpdate g rms eff sp) L).gate_open = false)) := by
  have hopen : gateUpdate g rms eff sp =
      ⟨true, g.samples_since_close + FRAME_SIZE, 0, 0⟩ := by
    unfold gateUpdate
    rw [if_pos hcond, if_pos (by
      simp only [attackSamples_eq, frameSize_eq]; omega)]
  refine ⟨by rw [hopen], by rw [hopen], ?_⟩
  intro L hL
  constructor
  · intro hlen
    rw [hopen, gateRun_subthreshold L hL _ 0 0 (by
      simp only [releaseSamples_eq, frameSize_eq]
      omega)]
  · intro hlen
    have hne : L ≠ [] := by
      intro h; rw [h] at hlen; simp at hlen
    obtain ⟨T, f, rfl⟩ : ∃ T f, L = T ++ [f] :=
      ⟨L.dropLast, L.getLast hne, (L.dropLast_append_getLast hne).symm⟩
    have hTlen : T.length = 20 := by
      simpa [List.length_append] using hlen
    have hT : ∀ f ∈ T, ¬(f.2.1 < f.1 ∨ f.2.2 = true) :=
      fun x hx => hL x (List.mem_append_left _ hx)
    have hf : ¬(f.2.1 < f.1 ∨ f.2.2 = true) :=
      hL f (List.mem_append_right _ (List.mem_singleton.mpr rfl))
    rw [hopen]
    have hrunT := gateRun_subthreshold T hT (g.samples_since_close + FRAME_SIZE) 0 0 (by
      simp only [releaseSamples_eq, frameSize_eq, hTlen]; omega)
    have happ : gateRun ⟨true, g.samples_since_close + FRAME_SIZE, 0, 0⟩ (T ++ [f]) =
        gateUpdate (gateRun ⟨true, g.samples_since_close + FRAME_SIZE, 0, 0⟩ T) f.1 f.2.1 f.2.2 := by
      simp [gateRun, List.foldl_append]
    rw [happ, hrunT]
    unfold gateUpdate
    rw [if_neg hf, if_pos rfl, if_pos (by
      simp only [releaseSamples_eq, frameSize_eq, hTlen]
      omega)]

/-- Witness for C4: a closed speech frame followed by 20 silent frames keeps
the gate open; 21 silent frames close it. -/
theorem c4_gate_hysteresis_witness :
    ((0:ℚ) < 0 ∨ true = true) ∧
    ((gateUpdate ⟨false, 0, 0, 0⟩ 0 0 true).gate_open = true ∧
      (gateUpdate ⟨false, 0, 0, 0⟩ 0 0 true).samples_since_open = 0 ∧
      (∀ L : List (ℚ × ℚ × Bool), (∀ f ∈ L, ¬(f.2.1 < f.1 ∨ f.2.2 = true)) →
        (L.length ≤ 20 → (gateRun (gateUpdate ⟨false, 0, 0, 0⟩ 0 0 true) L).gate_open = true) ∧
        (L.length = 21 → (gateRun (gateUpdate ⟨false, 0, 0, 0⟩ 0 0 true) L).gate_open = false))) :=
  ⟨Or.inr rfl, c4_gate_hysteresis ⟨false, 0, 0, 0⟩ 0 0 true (Or.inr rfl)⟩

lemma updVad_preserves {D V A : Type} (q : VoidProcessor D V A) :
    (updVad q).vad_sensitivity = q.vad_sensitivity ∧
    (updVad q).eq = q.eq ∧
    (updVad q).eq_low_gain = q.eq_low_gain ∧
    (updVad q).eq_mid_gain = q.eq_mid_gain ∧
    (updVad q).eq_high_gain = q.eq_high_gain ∧
    (updVad q).current_eq_low = q.current_eq_low ∧
    (updVad q).current_eq_mid = q.current_eq_mid ∧
    (updVad q).current_eq_high = q.current_eq_high ∧
    (updVad q).bypass_state = q.bypass_state ∧
    (updVad q).bypass_enabled = q.bypass_enabled ∧
    (updVad q).eq_enabled = q.eq_enabled ∧
    (updVad q).agc_enabled = q.agc_enabled ∧
    (updVad q).current_eq_enabled = q.current_eq_enabled ∧
    (updVad q).current_agc_enabled = q.current_agc_enabled ∧
    (updVad q).agc_target = q.agc_target ∧
    (updVad q).agc_limiter = q.agc_limiter := by
  unfold updVad; split <;> simp

lemma updEqGains_preserves {D V A : Type} (E : Engines D V A) (q : VoidProcessor D V A) :
    (updEqGains E q).vad_sensitivity = q.vad_sensitivity ∧
    (updEqGains E q).current_vad_mode = q.current_vad_mode ∧
    (updEqGains E q).bypass_state = q.bypass_state ∧
    (updEqGains E q).bypass_enabled = q.bypass_enabled ∧
    (updEqGains E q).eq_enabled = q.eq_enabled ∧
    (updEqGains E q).agc_enabled = q.agc_enabled ∧
    (updEqGains E q).current_eq_enabled = q.current_eq_enabled ∧
    (updEqGains E q).current_agc_enabled = q.current_agc_enabled ∧
    (updEqGains E q).agc_target = q.agc_target ∧
    (updEqGains E q).agc_limiter = q.agc_limiter ∧
    (updEqGains E q).eq_low_gain = q.eq_low_gain ∧
    (updEqGains E q).eq_mid_gain = q.eq_mid_gain ∧
    (updEqGains E q).eq_high_gain = q.eq_high_gain := by
  unfold updEqGains
  split
  · simp
  · split <;> simp

lemma updBypass_preserves {D V A : Type} (q : VoidProcessor D V A) :
    (updBypass q).vad_sensitivity = q.vad_sensitivity ∧
    (updBypass q).current_vad_mode = q.current_vad_mode ∧
    (updBypass q).eq = q.eq ∧
    (updBypass q).eq_low_gain = q.eq_low_gain ∧
    (updBypass q).eq_mid_gain = q.eq_mid_gain ∧
    (updBypass q).eq_high_gain = q.eq_high_gain ∧
    (updBypass q).current_eq_low = q.current_eq_low ∧
    (updBypass q).current_eq_mid = q.current_eq_mid ∧
    (updBypass q).current_eq_high = q.current_eq_high ∧
    (updBypass q).bypass_enabled = q.bypass_enabled ∧
    (updBypass q).eq_enabled = q.eq_enabled ∧
    (updBypass q).agc_enabled = q.agc_enabled ∧
    (updBypass q).current_eq_enabled = q.current_eq_enabled ∧
    (updBypass q).current_agc_enabled = q.current_agc_enabled ∧
    (updBypass q).agc_target = q.agc_target ∧
    (updBypass q).agc_limiter = q.agc_limiter := by
  unfold updBypass; split <;> simp

lemma updFlags_preserves {D V A : Type} (q : VoidProcessor D V A) :
    (updFlags q).vad_sensitivity = q.vad_sensitivity ∧
    (updFlags q).current_vad_mode = q.current_vad_mode ∧
    (updFlags q).eq = q.eq ∧
    (updFlags q).eq_low_gain = q.eq_low_gain ∧
    (updFlags q).eq_mid_gain = q.eq_mid_gain ∧
    (updFlags q).eq_high_gain = q.eq_high_gain ∧
    (updFlags q).current_eq_low = q.current_eq_low ∧
    (updFlags q).current_eq_mid = q.current_eq_mid ∧
    (updFlags q).current_eq_high = q.current_eq_high ∧
    (updFlags q).bypass_state = q.bypass_state ∧
    (updFlags q).bypass_enabled = q.bypass_enabled ∧
    (updFlags q).eq_enabled = q.eq_enabled ∧
    (updFlags q).agc_enabled = q.agc_enabled ∧
    (updFlags q).agc_target = q.agc_target ∧
    (updFlags q).agc_limiter = q.agc_limiter := by
  unfold updFlags; simp

lemma updAgcTarget_preserves {D V A : Type} (q : VoidProcessor D V A) :
    (updAgcTarget q).vad_sensitivity = q.vad_sensitivity ∧
    (updAgcTarget q).current_vad_mode = q.current_vad_mode ∧
    (updAgcTarget q).eq = q.eq ∧
    (updAgcTarget q).eq_low_gain = q.eq_low_gain ∧
    (updAgcTarget q).eq_mid_gain = q.eq_mid_gain ∧
    (updAgcTarget q).eq_high_gain = q.eq_high_gain ∧
    (updAgcTarget q).current_eq_low = q.current_eq_low ∧
    (updAgcTarget q).current_eq_mid = q.current_eq_mid ∧
    (updAgcTarget q).current_eq_high = q.current_eq_high ∧
    (updAgcTarget q).bypass_state = q.bypass_state ∧
    (updAgcTarget q).bypass_enabled = q.bypass_enabled ∧
    (updAgcTarget q).eq_enabled = q.eq_enabled ∧
    (updAgcTarget q).agc_enabled = q.agc_enabled ∧
    (updAgcTarget q).current_eq_enabled = q.current_eq_enabled ∧
    (updAgcTarget q).current_agc_enabled = q.current_agc_enabled ∧
    (updAgcTarget q).agc_target = q.agc_target := by
  unfold updAgcTarget; split <;> simp

lemma updVad_cur {D V A : Type} (q : VoidProcessor D V A) : (updVad q).current_vad_mode =
    if q.vad_sensitivity = q.current_vad_mode then q.current_vad_mode
    else clampI q.vad_sensitivity 0 3 := by
  unfold updVad
  split_ifs with h1 h2 <;> simp_all

lemma updVad_fix {D V A : Type} (q : VoidProcessor D V A)
    (h : q.vad_sensitivity = q.current_vad_mode ∨
      q.current_vad_mode = clampI q.vad_sensitivity 0 3) : updVad q = q := by
  unfold updVad
  rcases h with h | h
  · rw [if_neg (by simp [h])]
  · split
    · rw [← h]
    · rfl

lemma updEqGains_fix {D V A : Type} (E : Engines D V A) (q : VoidProcessor D V A)
    (h : q.eq.isEmpty = true ∨
      ¬(1/100 < absQ (q.eq_low_gain - q.current_eq_low) ∨
        1/100 < absQ (q.eq_mid_gain - q.current_eq_mid) ∨
        1/100 < absQ (q.eq_high_gain - q.current_eq_high))) : updEqGains E q = q := by
  unfold updEqGains
  rcases h with h | h
  · rw [if_pos h]
  · by_cases he : q.eq.isEmpty
    · rw [if_pos he]
    · rw [if_neg he, if_neg h]

lemma updBypass_fix {D V A : Type} (q : VoidProcessor D V A)
    (h1 : q.bypass_state = BypassState.Active → q.bypass_enabled = false)
    (h2 : q.bypass_state = BypassState.Bypassed → q.bypass_enabled = true) :
    updBypass q = q := by
  unfold updBypass
  rcases hs : q.bypass_state <;> rcases he : q.bypass_enabled <;> simp_all

lemma updFlags_fix {D V A : Type} (q : VoidProcessor D V A)
    (h1 : q.current_eq_enabled = q.eq_enabled)
    (h2 : q.current_agc_enabled = q.agc_enabled) : updFlags q = q := by
  unfold updFlags
  nth_rewrite 1 [← h1]
  nth_rewrite 1 [← h2]
  rfl

lemma updAgcTarget_fix {D V A : Type} (q : VoidProcessor D V A)
    (h : ¬(1/100 < absQ (q.agc_target - q.agc_limiter.target_level))) :
    updAgcTarget q = q := by
  unfold updAgcTarget
  rw [if_neg h]

lemma absQ_self_sub (x : ℚ) : absQ (x - x) = 0 := by
  simp [absQ]

/-- C10: `process_updates` is idempotent — with the shared control cells
unchanged, a second call is a no-op on the whole processor state, and (being
a total function of the model) neither call panics. -/
theorem c10_processUpdates_idempotent {D V A : Type} (E : Engines D V A)
    (p : VoidProcessor D V A) :
    processUpdates E (processUpdates E p) = processUpdates E p := by
  obtain ⟨v1, v2, v3, v4, v5, v6, v7, v8, v9, v10, v11, v12, v13, v14, v15, v16⟩ :=
    updVad_preserves p
  set p1 := updVad p with hp1
  obtain ⟨e1, e2, e3, e4, e5, e6, e7, e8, e9, e10, e11, e12, e13⟩ :=
    updEqGains_preserves E p1
  set p2 := updEqGains E p1 with hp2
  obtain ⟨b1, b2, b3, b4, b5, b6, b7, b8, b9, b10, b11, b12, b13, b14, b15, b16⟩ :=
    updBypass_preserves p2
  set p3 := updBypass p2 with hp3
  obtain ⟨f1, f2, f3, f4, f5, f6, f7, f8, f9, f10, f11, f12, f13, f14, f15⟩ :=
    updFlags_preserves p3
  set p4 := updFlags p3 with hp4
  obtain ⟨a1, a2, a3, a4, a5, a6, a7, a8, a9, a10, a11, a12, a13, a14, a15, a16⟩ :=
    updAgcTarget_preserves p4
  set p5 := updAgcTarget p4 with hp5
  show processUpdates E p5 = p5
  have hsens : p5.vad_sensitivity = p.vad_sensitivity := by
    rw [a1, f1, b1, e1, v1]
  have hcur : p5.current_vad_mode = p1.current_vad_mode := by
    rw [a2, f2, b2, e2]
  have hVad : updVad p5 = p5 := by
    apply updVad_fix
    rw [hsens, hcur, updVad_cur p]
    by_cases h : p.vad_sensitivity = p.current_vad_mode
    · rw [if_pos h]; exact Or.inl h
    · rw [if_neg h]; exact Or.inr rfl
  have heqc : p5.eq = p2.eq := by rw [a3, f3, b3]
  have hlg : p5.eq_low_gain = p1.eq_low_gain := by rw [a4, f4, b4, e11]
  have hmg : p5.eq_mid_gain = p1.eq_mid_gain := by rw [a5, f5, b5, e12]
  have hhg : p5.eq_high_gain = p1.eq_high_gain := by rw [a6, f6, b6, e13]
  have hcl : p5.current_eq_low = p2.current_eq_low := by rw [a7, f7, b7]
  have hcm : p5.current_eq_mid = p2.current_eq_mid := by rw [a8, f8, b8]
  have hch : p5.current_eq_high = p2.current_eq_high := by rw [a9, f9, b9]
  have hEq : updEqGains E p5 = p5 := by
    apply updEqGains_fix
    by_cases hemp : p1.eq.isEmpty = true
    · left
      have : p2 = p1 := by rw [hp2]; unfold updEqGains; rw [if_pos hemp]
      rw [heqc, this]; exact hemp
    · by_cases hg : 1/100 < absQ (p1.eq_low_gain - p1.current_eq_low) ∨
          1/100 < absQ (p1.eq_mid_gain - p1.current_eq_mid) ∨
          1/100 < absQ (p1.eq_high_gain - p1.current_eq_high)
      · right
        have h2 : p2.current_eq_low = p1.eq_low_gain ∧ p2.current_eq_mid = p1.eq_mid_gain ∧
            p2.current_eq_high = p1.eq_high_gain := by
          rw [hp2]; unfold updEqGains; rw [if_neg hemp, if_pos hg]
          exact ⟨rfl, rfl, rfl⟩
        rw [hlg, hmg, hhg, hcl, hcm, hch, h2.1, h2.2.1, h2.2.2]
        simp only [absQ_self_sub]
        push_neg
        norm_num
      · right
        have h2 : p2 = p1 := by rw [hp2]; unfold updEqGains; rw [if_neg hemp, if_neg hg]
        rw [hlg, hmg, hhg, hcl, hcm, hch, h2]
        exact hg
  have hbe : p5.bypass_enabled = p2.bypass_enabled := by rw [a11, f11, b10]
  have hbs : p5.bypass_state = p3.bypass_state := by rw [a10, f10]
  have hBypass : updBypass p5 = p5 := by
    have hdef : p3 = updBypass p2 := hp3
    rcases hst : p2.bypass_state <;> rcases hen : p2.bypass_enabled <;>
      apply updBypass_fix <;>
        (try (intro hA; rw [hbs] at hA)) <;>
        rw [hdef] at * <;> unfold updBypass at * <;> simp_all
  have hFlags : updFlags p5 = p5 := by
    apply updFlags_fix
    · rw [a14, hp4]
      have : (updFlags p3).current_eq_enabled = p3.eq_enabled := rfl
      rw [this, a12, f12]
    · rw [a15, hp4]
      have : (updFlags p3).current_agc_enabled = p3.agc_enabled := rfl
      rw [this, a13, f13]
  have hAgc : updAgcTarget p5 = p5 := by
    apply updAgcTarget_fix
    by_cases hg : 1/100 < absQ (p4.agc_target - p4.agc_limiter.target_level)
    · have h2 : p5.agc_limiter.target_level = p4.agc_target := by
        rw [hp5]; unfold updAgcTarget; rw [if_pos hg]
      rw [a16, h2, absQ_self_sub]
      norm_num
    · have h2 : p5 = p4 := by rw [hp5]; unfold updAgcTarget; rw [if_neg hg]
      rw [h2]
      exact hg
  show updAgcTarget (updFlags (updBypass (updEqGains E (updVad p5)))) = p5
  rw [hVad, hEq, hBypass, hFlags, hAgc]

lemma chanStep_isSome {D V A : Type} (E : Engines D V A) (supp : ℚ) (i : ℕ)
    (refs : Option (List (List ℚ))) (input outInit : List ℚ)
    (dOpt : Option D) (aOpt : Option A)
    (h1 : input.length = FRAME_SIZE) (h2 : outInit.length = FRAME_SIZE) :
    ∃ c, chanStep E supp i refs input outInit dOpt aOpt = some c := by
  unfold chanStep
  rw [if_pos h1, if_pos h2]
  exact ⟨_, rfl⟩

lemma perChannels_isSome {D V A : Type} (E : Engines D V A) (supp : ℚ)
    (refs : Option (List (List ℚ))) :
    ∀ (ins outs : List (List ℚ)) (i0 : ℕ) (ds : List D) (as2 : List A),
      (∀ ch ∈ ins, ch.length = FRAME_SIZE) → (∀ ch ∈ outs, ch.length = FRAME_SIZE) →
      ∃ r, perChannels E supp refs i0 ins outs ds as2 = some r := by
  intro ins
  induction ins with
  | nil => intro outs i0 ds as2 _ _; exact ⟨_, rfl⟩
  | cons inCh ins ih =>
    intro outs i0 ds as2 hin hout
    match outs with
    | [] => exact ⟨_, rfl⟩
    | outCh :: outs =>
      obtain ⟨⟨blended, dNew, aNew⟩, hc⟩ := chanStep_isSome E supp i0 refs inCh outCh
        ds.head? as2.head? (hin inCh (List.mem_cons_self _ _))
        (hout outCh (List.mem_cons_self _ _))
      obtain ⟨⟨rOuts, rDs, rAs⟩, hr⟩ := ih outs (i0 + 1) ds.tail as2.tail
        (fun ch hch => hin ch (List.mem_cons_of_mem _ hch))
        (fun ch hch => hout ch (List.mem_cons_of_mem _ hch))
      refine ⟨(blended :: rOuts, consIf ds dNew rDs, consIf as2 aNew rAs), ?_⟩
      unfold perChannels
      rw [hc, hr]

lemma processFrame_eq_of_valid {D V A : Type} (E : Engines D V A)
    (p : VoidProcessor D V A) (inputs outputs : List (List ℚ))
    (refs : Option (List (List ℚ))) (supp thr : ℚ) (dyn : Bool)
    (outs1 : List (List ℚ)) (ds2 : List D) (as2 : List A)
    (hin : inputs.length = p.channels) (hout : outputs.length = p.channels)
    (hpc : perChannels E supp refs 0 inputs outputs p.denoise p.echo_canceller =
      some (outs1, ds2, as2)) :
    processFrame E p inputs outputs refs supp thr dyn =
      (let pA := { p with denoise := ds2, echo_canceller := as2 }
       let mono := monoMixOf p.channels outs1
       let mid : VoidProcessor D V A × List (List ℚ) :=
         match pA.bypass_state with
         | BypassState.Bypassed => (pA, inputs)
         | _ => analysisStage E pA mono outs1 thr dyn
       let xf := xfadeStage E mid.1 inputs mid.2
       some ({ xf.1 with spectrum_frame_counter := spectrumTick xf.1.spectrum_frame_counter },
         xf.2)) := by
  unfold processFrame
  rw [if_neg (by push_neg; exact ⟨hin, hout⟩), hpc]

lemma xfadeStage_proj {D V A : Type} (E : Engines D V A) (q : VoidProcessor D V A)
    (ins outs : List (List ℚ)) :
    (xfadeStage E q ins outs).1.volume_level = q.volume_level ∧
    (xfadeStage E q ins outs).1.calibration_mode = q.calibration_mode ∧
    (xfadeStage E q ins outs).1.calibration_samples = q.calibration_samples ∧
    (xfadeStage E q ins outs).1.calibration_result = q.calibration_result ∧
    (xfadeStage E q ins outs).1.noise_floor_tracker = q.noise_floor_tracker ∧
    (xfadeStage E q ins outs).1.gate_open = q.gate_open ∧
    (xfadeStage E q ins outs).1.samples_since_close = q.samples_since_close ∧
    (xfadeStage E q ins outs).1.samples_since_open = q.samples_since_open ∧
    (xfadeStage E q ins outs).1.fade_position = q.fade_position ∧
    (xfadeStage E q ins outs).1.eq = q.eq ∧
    (xfadeStage E q ins outs).1.agc_limiter = q.agc_limiter ∧
    (xfadeStage E q ins outs).1.vad_instances = q.vad_instances ∧
    (xfadeStage E q ins outs).1.channels = q.channels ∧
    (xfadeStage E q ins outs).1.denoise = q.denoise ∧
    (xfadeStage E q ins outs).1.echo_canceller = q.echo_canceller ∧
    (xfadeStage E q ins outs).1.spectrum_frame_counter = q.spectrum_frame_counter := by
  unfold xfadeStage
  split <;> simp

lemma foldl_max_init_le (l : List ℚ) : ∀ a : ℚ, a ≤ l.foldl max a := by
  induction l with
  | nil => intro a; exact le_refl a
  | cons x xs ih =>
    intro a
    exact le_trans (le_max_left a x) (ih (max a x))

lemma mem_le_foldl_max (l : List ℚ) : ∀ (x : ℚ), x ∈ l → ∀ a : ℚ, x ≤ l.foldl max a := by
  induction l with
  | nil => intro x hx; exact absurd hx (List.not_mem_nil x)
  | cons y ys ih =>
    intro x hx a
    rcases List.mem_cons.mp hx with rfl | hx
    · exact le_trans (le_max_right a x) (foldl_max_init_le ys (max a x))
    · exact ih x hx (max a y)

set_option maxHeartbeats 1000000 in
lemma analysisStage_proj {D V A : Type} (E : Engines D V A) (p : VoidProcessor D V A)
    (mono : List ℚ) (outs : List (List ℚ)) (thr : ℚ) (dyn : Bool) :
    (analysisStage E p mono outs thr dyn).1.volume_level = rmsOf E.sqrtQ mono ∧
    (analysisStage E p mono outs thr dyn).1.bypass_state = p.bypass_state ∧
    (analysisStage E p mono outs thr dyn).1.crossfade_pos = p.crossfade_pos ∧
    (analysisStage E p mono outs thr dyn).1.channels = p.channels ∧
    (analysisStage E p mono outs thr dyn).1.denoise = p.denoise ∧
    (analysisStage E p mono outs thr dyn).1.echo_canceller = p.echo_canceller ∧
    (analysisStage E p mono outs thr dyn).1.spectrum_frame_counter = p.spectrum_frame_counter ∧
    (analysisStage E p mono outs thr dyn).1.noise_floor_tracker =
      (if dyn then p.noise_floor_tracker.update (rmsOf E.sqrtQ mono)
       else p.noise_floor_tracker) ∧
    (analysisStage E p mono outs thr dyn).1.calibration_mode =
      (if p.calibration_mode then
        (if calibrationFrames ≤ (p.calibration_samples ++ [rmsOf E.sqrtQ mono]).length then false
         else p.calibration_mode)
       else p.calibration_mode) ∧
    (analysisStage E p mono outs thr dyn).1.calibration_samples =
      (if p.calibration_mode then
        (if calibrationFrames ≤ (p.calibration_samples ++ [rmsOf E.sqrtQ mono]).length then []
         else p.calibration_samples ++ [rmsOf E.sqrtQ mono])
       else p.calibration_samples) ∧
    (analysisStage E p mono outs thr dyn).1.calibration_result =
      (if p.calibration_mode then
        (if calibrationFrames ≤ (p.calibration_samples ++ [rmsOf E.sqrtQ mono]).length then
          max ((p.calibration_samples ++ [rmsOf E.sqrtQ mono]).foldl max 0 * (6/5)) (1/200)
         else p.calibration_result)
       else p.calibration_result) ∧
    (analysisStage E p mono outs thr dyn).1.gate_open =
      (gateUpdate ⟨p.gate_open, p.samples_since_close, p.samples_since_open, p.fade_position⟩
        (rmsOf E.sqrtQ mono)
        (if dyn then effectiveThreshold (p.noise_floor_tracker.update (rmsOf E.sqrtQ mono))
         else thr)
        ((E.vadRun (p.vad_instances (vadIndex p.current_vad_mode))
          (mono.map ratToI16)).2.getD false)).gate_open ∧
    (analysisStage E p mono outs thr dyn).1.samples_since_close =
      (gateUpdate ⟨p.gate_open, p.samples_since_close, p.samples_since_open, p.fade_position⟩
        (rmsOf E.sqrtQ mono)
        (if dyn then effectiveThreshold (p.noise_floor_tracker.update (rmsOf E.sqrtQ mono))
         else thr)
        ((E.vadRun (p.vad_instances (vadIndex p.current_vad_mode))
          (mono.map ratToI16)).2.getD false)).samples_since_close ∧
    (analysisStage E p mono outs thr dyn).1.samples_since_open =
      (gateUpdate ⟨p.gate_open, p.samples_since_close, p.samples_since_open, p.fade_position⟩
        (rmsOf E.sqrtQ mono)
        (if dyn then effectiveThreshold (p.noise_floor_tracker.update (rmsOf E.sqrtQ mono))
         else thr)
        ((E.vadRun (p.vad_instances (vadIndex p.current_vad_mode))
          (mono.map ratToI16)).2.getD false)).samples_since_open := by
  unfold analysisStage
  dsimp only
  split_ifs <;>
    refine ⟨?_, ?_, ?_, ?_, ?_, ?_, ?_, ?_, ?_, ?_, ?_, ?_, ?_, ?_⟩ <;>
      rfl

lemma bypass_match_reduce {D V A : Type} (q : VoidProcessor D V A)
    (x y : VoidProcessor D V A × List (List ℚ))
    (h : q.bypass_state ≠ BypassState.Bypassed) :
    (match q.bypass_state with
     | BypassState.Bypassed => x
     | _ => y) = y := by
  rcases hb : q.bypass_state <;> first | rfl | exact absurd hb h

/-- C6: calibration is a one-shot, time-bounded measurement.  With
calibration mode on and the processor not bypassed, a (shape-valid) call to
`process_frame` appends the frame's mono RMS to the calibration buffer; on
the call where the buffer reaches 300 entries (~3 s) the suggested threshold
`max(1.2 × maximum observed RMS, 0.005)` is published, calibration mode is
switched off, and the buffer is cleared (the fold bound conjunct states that
the published fold is an upper bound of every observed RMS sample). -/
theorem c6_calibration_one_shot {D V A : Type} (E : Engines D V A)
    (p : VoidProcessor D V A) (inputs outputs : List (List ℚ))
    (refs : Option (List (List ℚ))) (supp thr : ℚ) (dyn : Bool)
    (hin : inputs.length = p.channels) (hout : outputs.length = p.channels)
    (hin480 : ∀ ch ∈ inputs, ch.length = FRAME_SIZE)
    (hout480 : ∀ ch ∈ outputs, ch.length = FRAME_SIZE)
    (hmode : p.calibration_mode = true)
    (hnb : p.bypass_state ≠ BypassState.Bypassed) :
    ∃ outs1 ds2 as2 p2 outs2,
      perChannels E supp refs 0 inputs outputs p.denoise p.echo_canceller =
        some (outs1, ds2, as2) ∧
      processFrame E p inputs outputs refs supp thr dyn = some (p2, outs2) ∧
      p2.calibration_samples =
        (if calibrationFrames ≤ p.calibration_samples.length + 1 then []
         else p.calibration_samples ++ [rmsOf E.sqrtQ (monoMixOf p.channels outs1)]) ∧
      p2.calibration_mode =
        (if calibrationFrames ≤ p.calibration_samples.length + 1 then false else true) ∧
      p2.calibration_result =
        (if calibrationFrames ≤ p.calibration_samples.length + 1 then
          max ((p.calibration_samples ++
              [rmsOf E.sqrtQ (monoMixOf p.channels outs1)]).foldl max 0 * (6/5)) (1/200)
         else p.calibration_result) ∧
      ∀ x ∈ p.calibration_samples ++ [rmsOf E.sqrtQ (monoMixOf p.channels outs1)],
        x ≤ (p.calibration_samples ++ [rmsOf E.sqrtQ (monoMixOf p.channels outs1)]).foldl max 0 := by
  obtain ⟨⟨outs1, ds2, as2⟩, hpc⟩ := perChannels_isSome E supp refs inputs outputs 0
    p.denoise p.echo_canceller hin480 hout480
  have hPF := processFrame_eq_of_valid E p inputs outputs refs supp thr dyn
    outs1 ds2 as2 hin hout hpc
  dsimp only at hPF
  set pA : VoidProcessor D V A := { p with denoise := ds2, echo_canceller := as2 } with hpA
  have hnbA : pA.bypass_state ≠ BypassState.Bypassed := hnb
  rw [bypass_match_reduce pA (pA, inputs)
    (analysisStage E pA (monoMixOf p.channels outs1) outs1 thr dyn) hnbA] at hPF
  obtain ⟨a1, a2, a3, a4, a5, a6, a7, a8, a9, a10, a11, a12, a13, a14⟩ :=
    analysisStage_proj E pA (monoMixOf p.channels outs1) outs1 thr dyn
  obtain ⟨x1, x2, x3, x4, x5, x6, x7, x8, x9, x10, x11, x12, x13, x14, x15, x16⟩ :=
    xfadeStage_proj E (analysisStage E pA (monoMixOf p.channels outs1) outs1 thr dyn).1
      inputs (analysisStage E pA (monoMixOf p.channels outs1) outs1 thr dyn).2
  have hmodeA : pA.calibration_mode = true := hmode
  have hsampA : pA.calibration_samples = p.calibration_samples := rfl
  have hresA : pA.calibration_result = p.calibration_result := rfl
  have hlen : (pA.calibration_samples ++
      [rmsOf E.sqrtQ (monoMixOf p.channels outs1)]).length =
      p.calibration_samples.length + 1 := by
    rw [hsampA]; simp
  refine ⟨outs1, ds2, as2, _, _, hpc, hPF, ?_, ?_, ?_, ?_⟩
  · dsimp only
    rw [x3, a10, hmodeA, if_pos rfl, hlen, hsampA]
  · dsimp only
    rw [x2, a9, hmodeA, if_pos rfl, hlen]
  · dsimp only
    rw [x4, a11, hmodeA, if_pos rfl, hlen, hsampA, hresA]
  · intro x hx
    exact mem_le_foldl_max _ x hx 0

/-- Witness for C6: a mono processor with calibration mode just switched on,
fed one silent frame. -/
theorem c6_calibration_one_shot_witness :
    (([List.replicate 480 (0:ℚ)].length = { procU1 with calibration_mode := true }.channels ∧
      [List.replicate 480 (0:ℚ)].length = { procU1 with calibration_mode := true }.channels ∧
      (∀ ch ∈ [List.replicate 480 (0:ℚ)], ch.length = FRAME_SIZE) ∧
      (∀ ch ∈ [List.replicate 480 (0:ℚ)], ch.length = FRAME_SIZE) ∧
      { procU1 with calibration_mode := true }.calibration_mode = true ∧
      { procU1 with calibration_mode := true }.bypass_state ≠ BypassState.Bypassed)) ∧
    (∃ outs1 ds2 as2 p2 outs2,
      perChannels engU 1 none 0 [List.replicate 480 0] [List.replicate 480 0]
        { procU1 with calibration_mode := true }.denoise
        { procU1 with calibration_mode := true }.echo_canceller = some (outs1, ds2, as2) ∧
      processFrame engU { procU1 with calibration_mode := true }
        [List.replicate 480 0] [List.replicate 480 0] none 1 (3/200) false = some (p2, outs2) ∧
      p2.calibration_samples =
        (if calibrationFrames ≤
            { procU1 with calibration_mode := true }.calibration_samples.length + 1 then []
         else { procU1 with calibration_mode := true }.calibration_samples ++
           [rmsOf engU.sqrtQ (monoMixOf { procU1 with calibration_mode := true }.channels outs1)]) ∧
      p2.calibration_mode =
        (if calibrationFrames ≤
            { procU1 with calibration_mode := true }.calibration_samples.length + 1 then false
         else true) ∧
      p2.calibration_result =
        (if calibrationFrames ≤
            { procU1 with calibration_mode := true }.calibration_samples.length + 1 then
          max (({ procU1 with calibration_mode := true }.calibration_samples ++
              [rmsOf engU.sqrtQ (monoMixOf { procU1 with calibration_mode := true }.channels
                outs1)]).foldl max 0 * (6/5)) (1/200)
         else { procU1 with calibration_mode := true }.calibration_result) ∧
      ∀ x ∈ { procU1 with calibration_mode := true }.calibration_samples ++
          [rmsOf engU.sqrtQ (monoMixOf { procU1 with calibration_mode := true }.channels outs1)],
        x ≤ ({ procU1 with calibration_mode := true }.calibration_samples ++
          [rmsOf engU.sqrtQ (monoMixOf { procU1 with calibration_mode := true }.channels
            outs1)]).foldl max 0) :=
  ⟨⟨by decide, by decide, by decide, by decide, by decide, by decide⟩,
    c6_calibration_one_shot engU { procU1 with calibration_mode := true }
      [List.replicate 480 0] [List.replicate 480 0] none 1 (3/200) false
      (by decide) (by decide) (by decide) (by decide) (by decide) (by decide)⟩

/-- C7 (amended): the noise floor tracker ingests the frame's mono RMS
exactly on the (shape-valid, non-bypassed) calls where dynamic threshold
mode is enabled — not on every call — and on those calls the gate decision
runs against the dynamic threshold `effectiveThreshold` =
`clamp(floor × 1.5 + 0.003, 0.005, 0.08)` of the updated tracker; with
dynamic mode disabled the tracker is untouched and the supplied fixed
threshold is used. -/
theorem c7_noise_floor_dynamic_only {D V A : Type} (E : Engines D V A)
    (p : VoidProcessor D V A) (inputs outputs : List (List ℚ))
    (refs : Option (List (List ℚ))) (supp thr : ℚ) (dyn : Bool)
    (hin : inputs.length = p.channels) (hout : outputs.length = p.channels)
    (hin480 : ∀ ch ∈ inputs, ch.length = FRAME_SIZE)
    (hout480 : ∀ ch ∈ outputs, ch.length = FRAME_SIZE)
    (hnb : p.bypass_state ≠ BypassState.Bypassed) :
    ∃ outs1 ds2 as2 p2 outs2,
      perChannels E supp refs 0 inputs outputs p.denoise p.echo_canceller =
        some (outs1, ds2, as2) ∧
      processFrame E p inputs outputs refs supp thr dyn = some (p2, outs2) ∧
      p2.noise_floor_tracker =
        (if dyn then
          p.noise_floor_tracker.update (rmsOf E.sqrtQ (monoMixOf p.channels outs1))
         else p.noise_floor_tracker) ∧
      p2.gate_open =
        (gateUpdate ⟨p.gate_open, p.samples_since_close, p.samples_since_open, p.fade_position⟩
          (rmsOf E.sqrtQ (monoMixOf p.channels outs1))
          (if dyn then
            effectiveThreshold
              (p.noise_floor_tracker.update (rmsOf E.sqrtQ (monoMixOf p.channels outs1)))
           else thr)
          ((E.vadRun (p.vad_instances (vadIndex p.current_vad_mode))
            ((monoMixOf p.channels outs1).map ratToI16)).2.getD false)).gate_open ∧
      effectiveThreshold
          (p.noise_floor_tracker.update (rmsOf E.sqrtQ (monoMixOf p.channels outs1))) =
        clampQ
          ((p.noise_floor_tracker.update
            (rmsOf E.sqrtQ (monoMixOf p.channels outs1))).floorEst * (3/2) + 3/1000)
          (1/200) (2/25) := by
  obtain ⟨⟨outs1, ds2, as2⟩, hpc⟩ := perChannels_isSome E supp refs inputs outputs 0
    p.denoise p.echo_canceller hin480 hout480
  have hPF := processFrame_eq_of_valid E p inputs outputs refs supp thr dyn
    outs1 ds2 as2 hin hout hpc
  dsimp only at hPF
  set pA : VoidProcessor D V A := { p with denoise := ds2, echo_canceller := as2 } with hpA
  have hnbA : pA.bypass_state ≠ BypassState.Bypassed := hnb
  rw [bypass_match_reduce pA (pA, inputs)
    (analysisStage E pA (monoMixOf p.channels outs1) outs1 thr dyn) hnbA] at hPF
  obtain ⟨a1, a2, a3, a4, a5, a6, a7, a8, a9, a10, a11, a12, a13, a14⟩ :=
    analysisStage_proj E pA (monoMixOf p.channels outs1) outs1 thr dyn
  obtain ⟨x1, x2, x3, x4, x5, x6, x7, x8, x9, x10, x11, x12, x13, x14, x15, x16⟩ :=
    xfadeStage_proj E (analysisStage E pA (monoMixOf p.channels outs1) outs1 thr dyn).1
      inputs (analysisStage E pA (monoMixOf p.channels outs1) outs1 thr dyn).2
  refine ⟨outs1, ds2, as2, _, _, hpc, hPF, ?_, ?_, rfl⟩
  · dsimp only
    rw [x5, a8]
  · dsimp only
    rw [x6, a12]

/-- Counterexample to C7 as stated: a shape-valid, non-bypassed call with
dynamic threshold mode disabled leaves the noise floor tracker untouched
(its sample count stays 0), whereas ingesting the frame's mono RMS — as the
claim asserts of every call — would raise the count to 1. -/
theorem c7_counterexample :
    (processFrame engU procU1 [List.replicate 480 0] [List.replicate 480 0]
        none 1 (3/200) false).map (fun r => r.1.noise_floor_tracker.count) =
      some 0 ∧
    (procU1.noise_floor_tracker.update
        (rmsOf engU.sqrtQ (monoMixOf procU1.channels [List.replicate 480 0]))).count = 1 ∧
    (0 : ℕ) ≠ 1 := by
  refine ⟨?_, ?_, by decide⟩
  · with_unfolding_all decide
  · with_unfolding_all decide

/-- Witness for the amended C7: the same call satisfies the amended claim —
with `dyn = false` the tracker is returned unchanged. -/
theorem c7_noise_floor_dynamic_only_witness :
    ([List.replicate 480 (0:ℚ)].length = procU1.channels ∧
      [List.replicate 480 (0:ℚ)].length = procU1.channels ∧
      (∀ ch ∈ [List.replicate 480 (0:ℚ)], ch.length = FRAME_SIZE) ∧
      (∀ ch ∈ [List.replicate 480 (0:ℚ)], ch.length = FRAME_SIZE) ∧
      procU1.bypass_state ≠ BypassState.Bypassed) ∧
    (∃ outs1 ds2 as2 p2 outs2,
      perChannels engU 1 none 0 [List.replicate 480 0] [List.replicate 480 0]
        procU1.denoise procU1.echo_canceller = some (outs1, ds2, as2) ∧
      processFrame engU procU1 [List.replicate 480 0] [List.replicate 480 0]
        none 1 (3/200) false = some (p2, outs2) ∧
      p2.noise_floor_tracker =
        (if false then
          procU1.noise_floor_tracker.update
            (rmsOf engU.sqrtQ (monoMixOf procU1.channels outs1))
         else procU1.noise_floor_tracker) ∧
      p2.gate_open =
        (gateUpdate ⟨procU1.gate_open, procU1.samples_since_close, procU1.samples_since_open,
            procU1.fade_position⟩
          (rmsOf engU.sqrtQ (monoMixOf procU1.channels outs1))
          (if false then
            effectiveThreshold
              (procU1.noise_floor_tracker.update
                (rmsOf engU.sqrtQ (monoMixOf procU1.channels outs1)))
           else (3/200))
          ((engU.vadRun (procU1.vad_instances (vadIndex procU1.current_vad_mode))
            ((monoMixOf procU1.channels outs1).map ratToI16)).2.getD false)).gate_open ∧
      effectiveThreshold
          (procU1.noise_floor_tracker.update
            (rmsOf engU.sqrtQ (monoMixOf procU1.channels outs1))) =
        clampQ
          ((procU1.noise_floor_tracker.update
            (rmsOf engU.sqrtQ (monoMixOf procU1.channels outs1))).floorEst * (3/2) + 3/1000)
          (1/200) (2/25)) :=
  ⟨⟨by decide, by decide, by decide, by decide, by decide⟩,
    c7_noise_floor_dynamic_only engU procU1 [List.replicate 480 0] [List.replicate 480 0]
      none 1 (3/200) false (by decide) (by decide) (by decide) (by decide) (by decide)⟩

lemma bypass_match_reduce_bypassed {D V A : Type} (q : VoidProcessor D V A)
    (x y : VoidProcessor D V A × List (List ℚ))
    (h : q.bypass_state = BypassState.Bypassed) :
    (match q.bypass_state with
     | BypassState.Bypassed => x
     | _ => y) = x := by
  rw [h]

lemma xfadeStage_id_of_bypassed {D V A : Type} (E : Engines D V A)
    (q : VoidProcessor D V A) (ins outs : List (List ℚ))
    (h : q.bypass_state = BypassState.Bypassed) :
    xfadeStage E q ins outs = (q, outs) := by
  unfold xfadeStage
  rw [h]

lemma xfadeStage_fadingOut {D V A : Type} (E : Engines D V A)
    (q : VoidProcessor D V A) (ins outs : List (List ℚ))
    (h : q.bypass_state = BypassState.FadingOut) :
    (xfadeStage E q ins outs).1.bypass_state =
      (if 480 ≤ tAt q.crossfade_pos FRAME_SIZE then BypassState.Bypassed
       else BypassState.FadingOut) := by
  unfold xfadeStage
  rw [h]

lemma updVad_channels {D V A : Type} (q : VoidProcessor D V A) :
    (updVad q).channels = q.channels := by
  unfold updVad; split <;> rfl

lemma updEqGains_channels {D V A : Type} (E : Engines D V A) (q : VoidProcessor D V A) :
    (updEqGains E q).channels = q.channels := by
  unfold updEqGains
  split
  · rfl
  · split <;> rfl

lemma updBypass_channels {D V A : Type} (q : VoidProcessor D V A) :
    (updBypass q).channels = q.channels := by
  unfold updBypass; split <;> rfl

lemma updFlags_channels {D V A : Type} (q : VoidProcessor D V A) :
    (updFlags q).channels = q.channels := rfl

lemma updAgcTarget_channels {D V A : Type} (q : VoidProcessor D V A) :
    (updAgcTarget q).channels = q.channels := by
  unfold updAgcTarget; split <;> rfl

lemma processUpdates_channels {D V A : Type} (E : Engines D V A) (q : VoidProcessor D V A) :
    (processUpdates E q).channels = q.channels := by
  unfold processUpdates
  rw [updAgcTarget_channels, updFlags_channels, updBypass_channels, updEqGains_channels,
    updVad_channels]

lemma updFlags_crossfade {D V A : Type} (q : VoidProcessor D V A) :
    (updFlags q).crossfade_pos = q.crossfade_pos := rfl

lemma updAgcTarget_crossfade {D V A : Type} (q : VoidProcessor D V A) :
    (updAgcTarget q).crossfade_pos = q.crossfade_pos := by
  unfold updAgcTarget; split <;> rfl

/-- C3: enabling bypass from the Active state and running `process_updates`
plus one `process_frame` walks the state machine through the full 480-sample
crossfade into `Bypassed`; and in the `Bypassed` state every (shape-valid)
call copies the raw input of each channel to the output exactly (hence
within 0.01 per sample), stays `Bypassed`, and skips steps 4-6: volume
publication, calibration, gating (and its VAD), EQ and AGC state are all
left untouched. -/
theorem c3_bypass_full_crossfade {D V A : Type} (E : Engines D V A)
    (p : VoidProcessor D V A) (inputs outputs : List (List ℚ))
    (refs : Option (List (List ℚ))) (supp thr : ℚ) (dyn : Bool)
    (hact : p.bypass_state = BypassState.Active)
    (hin : inputs.length = p.channels) (hout : outputs.length = p.channels)
    (hin480 : ∀ ch ∈ inputs, ch.length = FRAME_SIZE)
    (hout480 : ∀ ch ∈ outputs, ch.length = FRAME_SIZE) :
    (processUpdates E { p with bypass_enabled := true }).bypass_state =
      BypassState.FadingOut ∧
    (processUpdates E { p with bypass_enabled := true }).crossfade_pos = 0 ∧
    (∃ p2 outs2,
      processFrame E (processUpdates E { p with bypass_enabled := true })
        inputs outputs refs supp thr dyn = some (p2, outs2) ∧
      p2.bypass_state = BypassState.Bypassed) ∧
    (∀ (q : VoidProcessor D V A) (ins outsq : List (List ℚ))
        (refs2 : Option (List (List ℚ))) (s2 t2 : ℚ) (d2 : Bool),
      q.bypass_state = BypassState.Bypassed →
      ins.length = q.channels → outsq.length = q.channels →
      (∀ ch ∈ ins, ch.length = FRAME_SIZE) → (∀ ch ∈ outsq, ch.length = FRAME_SIZE) →
      ∃ q2 outs2, processFrame E q ins outsq refs2 s2 t2 d2 = some (q2, outs2) ∧
        outs2 = ins ∧
        (∀ i j, absQ ((outs2.getD i []).getD j 0 - (ins.getD i []).getD j 0) ≤ 1/100) ∧
        q2.bypass_state = BypassState.Bypassed ∧
        q2.volume_level = q.volume_level ∧
        q2.calibration_mode = q.calibration_mode ∧
        q2.calibration_samples = q.calibration_samples ∧
        q2.calibration_result = q.calibration_result ∧
        q2.gate_open = q.gate_open ∧
        q2.samples_since_close = q.samples_since_close ∧
        q2.samples_since_open = q.samples_since_open ∧
        q2.fade_position = q.fade_position ∧
        q2.eq = q.eq ∧
        q2.agc_limiter = q.agc_limiter ∧
        q2.noise_floor_tracker = q.noise_floor_tracker ∧
        q2.vad_instances = q.vad_instances) := by
  set p0 : VoidProcessor D V A := { p with bypass_enabled := true } with hp0
  obtain ⟨v1, v2, v3, v4, v5, v6, v7, v8, v9, v10, v11, v12, v13, v14, v15, v16⟩ :=
    updVad_preserves p0
  obtain ⟨e1, e2, e3, e4, e5, e6, e7, e8, e9, e10, e11, e12, e13⟩ :=
    updEqGains_preserves E (updVad p0)
  have hst : (updEqGains E (updVad p0)).bypass_state = BypassState.Active := by
    rw [e3, v9]; exact hact
  have hen : (updEqGains E (updVad p0)).bypass_enabled = true := by
    rw [e4, v10]
  have hstep : updBypass (updEqGains E (updVad p0)) =
      { updEqGains E (updVad p0) with
        bypass_state := BypassState.FadingOut, crossfade_pos := 0 } := by
    unfold updBypass
    rcases hs : (updEqGains E (updVad p0)).bypass_state <;>
      rcases he : (updEqGains E (updVad p0)).bypass_enabled <;>
        simp_all
  obtain ⟨f1, f2, f3, f4, f5, f6, f7, f8, f9, f10, f11, f12, f13, f14, f15⟩ :=
    updFlags_preserves (updBypass (updEqGains E (updVad p0)))
  obtain ⟨a1, a2, a3, a4, a5, a6, a7, a8, a9, a10, a11, a12, a13, a14, a15, a16⟩ :=
    updAgcTarget_preserves (updFlags (updBypass (updEqGains E (updVad p0))))
  have hbs1 : (processUpdates E p0).bypass_state = BypassState.FadingOut := by
    show (updAgcTarget (updFlags (updBypass (updEqGains E (updVad p0))))).bypass_state = _
    rw [a10, f10, hstep]
  have hcp1 : (processUpdates E p0).crossfade_pos = 0 := by
    show (updAgcTarget (updFlags (updBypass (updEqGains E (updVad p0))))).crossfade_pos = _
    rw [updAgcTarget_crossfade, updFlags_crossfade, hstep]
  refine ⟨hbs1, hcp1, ?_, ?_⟩
  · set p1 : VoidProcessor D V A := processUpdates E p0 with hp1
    have hch : p1.channels = p.channels := processUpdates_channels E p0
    obtain ⟨⟨outs1, ds2, as2⟩, hpc⟩ := perChannels_isSome E supp refs inputs outputs 0
      p1.denoise p1.echo_canceller hin480 hout480
    have hPF := processFrame_eq_of_valid E p1 inputs outputs refs supp thr dyn
      outs1 ds2 as2 (by rw [hch]; exact hin) (by rw [hch]; exact hout) hpc
    dsimp only at hPF
    set pA : VoidProcessor D V A := { p1 with denoise := ds2, echo_canceller := as2 } with hpA
    have hbsA : pA.bypass_state = BypassState.FadingOut := hbs1
    rw [bypass_match_reduce pA (pA, inputs)
      (analysisStage E pA (monoMixOf p1.channels outs1) outs1 thr dyn)
      (by rw [hbsA]; intro hcontra; exact BypassState.noConfusion hcontra)] at hPF
    obtain ⟨b1, b2, b3, b4, b5, b6, b7, b8, b9, b10, b11, b12, b13, b14⟩ :=
      analysisStage_proj E pA (monoMixOf p1.channels outs1) outs1 thr dyn
    have hmidbs : (analysisStage E pA (monoMixOf p1.channels outs1) outs1 thr dyn).1.bypass_state =
        BypassState.FadingOut := by rw [b2]; exact hbsA
    have hmidcp : (analysisStage E pA (monoMixOf p1.channels outs1) outs1 thr dyn).1.crossfade_pos =
        0 := by rw [b3]; exact hcp1
    have hxf := xfadeStage_fadingOut E
      (analysisStage E pA (monoMixOf p1.channels outs1) outs1 thr dyn).1
      inputs (analysisStage E pA (monoMixOf p1.channels outs1) outs1 thr dyn).2 hmidbs
    rw [hmidcp] at hxf
    refine ⟨_, _, hPF, ?_⟩
    dsimp only
    rw [hxf]
    decide
  · intro q ins outsq refs2 s2 t2 d2 hq hinq houtq hin4 hout4
    obtain ⟨⟨o1, d1, a1'⟩, hpcq⟩ := perChannels_isSome E s2 refs2 ins outsq 0
      q.denoise q.echo_canceller hin4 hout4
    have hPFq := processFrame_eq_of_valid E q ins outsq refs2 s2 t2 d2 o1 d1 a1'
      hinq houtq hpcq
    dsimp only at hPFq
    rw [bypass_match_reduce_bypassed ({ q with denoise := d1, echo_canceller := a1' })
      (({ q with denoise := d1, echo_canceller := a1' } : VoidProcessor D V A), ins)
      (analysisStage E { q with denoise := d1, echo_canceller := a1' }
        (monoMixOf q.channels o1) o1 t2 d2) hq] at hPFq
    rw [xfadeStage_id_of_bypassed E ({ q with denoise := d1, echo_canceller := a1' }) ins ins
      hq] at hPFq
    refine ⟨_, _, hPFq, rfl, ?_, hq, rfl, rfl, rfl, rfl, rfl, rfl, rfl, rfl, rfl, rfl, rfl, rfl⟩
    intro i j
    rw [absQ_self_sub]
    norm_num

/-- Witness for C3 at a concrete mono processor and silent frame. -/
theorem c3_bypass_full_crossfade_witness :
    (procU1.bypass_state = BypassState.Active ∧
      [List.replicate 480 (0:ℚ)].length = procU1.channels ∧
      [List.replicate 480 (0:ℚ)].length = procU1.channels ∧
      (∀ ch ∈ [List.replicate 480 (0:ℚ)], ch.length = FRAME_SIZE) ∧
      (∀ ch ∈ [List.replicate 480 (0:ℚ)], ch.length = FRAME_SIZE)) ∧
    ((processUpdates engU { procU1 with bypass_enabled := true }).bypass_state =
        BypassState.FadingOut ∧
      (processUpdates engU { procU1 with bypass_enabled := true }).crossfade_pos = 0 ∧
      (∃ p2 outs2,
        processFrame engU (processUpdates engU { procU1 with bypass_enabled := true })
          [List.replicate 480 0] [List.replicate 480 0] none 1 (3/200) false =
          some (p2, outs2) ∧
        p2.bypass_state = BypassState.Bypassed) ∧
      (∀ (q : VoidProcessor Unit Unit Unit) (ins outsq : List (List ℚ))
          (refs2 : Option (List (List ℚ))) (s2 t2 : ℚ) (d2 : Bool),
        q.bypass_state = BypassState.Bypassed →
        ins.length = q.channels → outsq.length = q.channels →
        (∀ ch ∈ ins, ch.length = FRAME_SIZE) → (∀ ch ∈ outsq, ch.length = FRAME_SIZE) →
        ∃ q2 outs2, processFrame engU q ins outsq refs2 s2 t2 d2 = some (q2, outs2) ∧
          outs2 = ins ∧
          (∀ i j, absQ ((outs2.getD i []).getD j 0 - (ins.getD i []).getD j 0) ≤ 1/100) ∧
          q2.bypass_state = BypassState.Bypassed ∧
          q2.volume_level = q.volume_level ∧
          q2.calibration_mode = q.calibration_mode ∧
          q2.calibration_samples = q.calibration_samples ∧
          q2.calibration_result = q.calibration_result ∧
          q2.gate_open = q.gate_open ∧
          q2.samples_since_close = q.samples_since_close ∧
          q2.samples_since_open = q.samples_since_open ∧
          q2.fade_position = q.fade_position ∧
          q2.eq = q.eq ∧
          q2.agc_limiter = q.agc_limiter ∧
          q2.noise_floor_tracker = q.noise_floor_tracker ∧
          q2.vad_instances = q.vad_instances)) :=
  ⟨⟨by decide, by decide, by decide, by decide, by decide⟩,
    c3_bypass_full_crossfade engU procU1 [List.replicate 480 0] [List.replicate 480 0]
      none 1 (3/200) false (by decide) (by decide) (by decide) (by decide) (by decide)⟩

lemma toFrame_length (l : List ℚ) : (toFrame l).length = FRAME_SIZE := by
  simp only [toFrame, List.length_append, List.length_take, List.length_replicate]
  omega

lemma interleave_length (l r : List ℚ) :
    (interleave l r).length = 2 * min l.length r.length := by
  induction l generalizing r with
  | nil => cases r <;> simp [interleave]
  | cons x xs ih =>
    cases r with
    | nil => simp [interleave]
    | cons y ys =>
      simp only [interleave, List.length_cons, ih]
      omega

lemma interleave_replicate (n : ℕ) (x : ℚ) :
    interleave (List.replicate n x) (List.replicate n x) = List.replicate (2 * n) x := by
  induction n with
  | zero => rfl
  | succ n ih =>
    rw [List.replicate_succ, interleave, ih, show 2 * (n + 1) = 2 * n + 1 + 1 by ring]
    rw [List.replicate_succ, List.replicate_succ]

lemma deinterleave_length : ∀ l : List ℚ,
    (deinterleave l).1.length = (l.length + 1) / 2 ∧ (deinterleave l).2.length = l.length / 2
  | [] => by simp [deinterleave]
  | [x] => by simp [deinterleave]
  | x :: y :: rest => by
    have ih := deinterleave_length rest
    simp only [deinterleave, List.length_cons, ih.1, ih.2]
    constructor <;> omega

lemma pushList_take (xs : List ℚ) : ∀ rb : HeapRb,
    rb.pushList xs = ⟨rb.cap, rb.data ++ xs.take (rb.cap - rb.data.length)⟩ := by
  induction xs with
  | nil => intro rb; simp [HeapRb.pushList]
  | cons x xs ih =>
    intro rb
    by_cases h : rb.data.length < rb.cap
    · have hstep : rb.tryPush x = ⟨rb.cap, rb.data ++ [x]⟩ := by
        unfold HeapRb.tryPush; rw [if_pos h]
      have : HeapRb.pushList rb (x :: xs) = HeapRb.pushList ⟨rb.cap, rb.data ++ [x]⟩ xs := by
        simp only [HeapRb.pushList, List.foldl_cons, hstep]
      rw [this, ih]
      have h1 : rb.cap - rb.data.length = (rb.cap - (rb.data.length + 1)) + 1 := by omega
      rw [h1, List.take_succ_cons]
      simp [List.append_assoc]
    · have hstep : rb.tryPush x = rb := by
        unfold HeapRb.tryPush; rw [if_neg h]
      have : HeapRb.pushList rb (x :: xs) = HeapRb.pushList rb xs := by
        simp only [HeapRb.pushList, List.foldl_cons, hstep]
      rw [this, ih]
      have hz : rb.cap - rb.data.length = 0 := by omega
      rw [hz]
      simp

lemma eqRunFrame_length (e : ThreeBandEq) : ∀ l : List ℚ,
    (eqRunFrame e l).2.length = l.length
  | [] => rfl
  | x :: xs => by
    simp only [eqRunFrame, List.length_cons]
    rw [eqRunFrame_length (e.process x).1 xs]

lemma applyFade_length (fp : ℕ) (ch : List ℚ) : (applyFade fp ch).length = ch.length := by
  simp [applyFade]

lemma applyGateEq_mem_shape (go ee : Bool) (fp : ℕ) :
    ∀ (chs : List (List ℚ)) (eqs : List ThreeBandEq),
      (∀ ch ∈ chs, ch.length = FRAME_SIZE) →
      (applyGateEq go ee fp eqs chs).1.length = chs.length ∧
      ∀ ch ∈ (applyGateEq go ee fp eqs chs).1, ch.length = FRAME_SIZE := by
  intro chs
  induction chs with
  | nil => intro eqs _; exact ⟨rfl, fun ch hch => absurd hch (List.not_mem_nil ch)⟩
  | cons ch chs ih =>
    intro eqs hall
    have hch480 : ch.length = FRAME_SIZE := hall ch (List.mem_cons_self _ _)
    have hg : (if go then ch else applyFade fp ch).length = FRAME_SIZE := by
      split
      · exact hch480
      · rw [applyFade_length]; exact hch480
    have hr : (match ee, eqs.head? with
        | true, some e => eqRunFrame e (if go then ch else applyFade fp ch)
        | _, _ => (eqs.headD (ThreeBandEq.mk (DF2T.new ⟨0,0,0,0,0⟩) (DF2T.new ⟨0,0,0,0,0⟩)
            (DF2T.new ⟨0,0,0,0,0⟩)), if go then ch else applyFade fp ch)).2.length =
        FRAME_SIZE := by
      rcases ee <;> rcases eqs.head? <;>
        simp only [eqRunFrame_length, hg]
    obtain ⟨ihlen, ihmem⟩ := ih eqs.tail (fun c hc => hall c (List.mem_cons_of_mem _ hc))
    constructor
    · simp only [applyGateEq, List.length_cons, ihlen]
    · intro c hc
      simp only [applyGateEq] at hc
      rcases List.mem_cons.mp hc with rfl | hc
      · split
        · exact hr
        · exact hg
      · exact ihmem c hc

lemma limiter_frame_shape (sq : ℚ → ℚ) (L : LookaheadLimiter) (frames : List (List ℚ))
    (hall : ∀ ch ∈ frames, ch.length = FRAME_SIZE) :
    (LookaheadLimiter.processFrame sq L frames).2.length = frames.length ∧
    ∀ ch ∈ (LookaheadLimiter.processFrame sq L frames).2, ch.length = FRAME_SIZE := by
  match frames with
  | [] => exact ⟨rfl, fun ch hch => absurd hch (List.not_mem_nil ch)⟩
  | f :: fs =>
    constructor
    · simp [LookaheadLimiter.processFrame]
    · intro ch hch
      simp only [LookaheadLimiter.processFrame] at hch
      obtain ⟨ch0, hmem, rfl⟩ := List.mem_map.mp hch
      rw [List.length_map]
      exact hall ch0 hmem

lemma aecApply_length {D V A : Type} (E : Engines D V A) (a : A) (mic rc : List ℚ)
    (h : mic.length = FRAME_SIZE) : (aecApply E a mic rc).2.length = FRAME_SIZE := by
  unfold aecApply
  rcases hr : E.aecRun a mic rc with ⟨a2, bo⟩
  rcases bo with _ | buf
  · exact h
  · exact toFrame_length buf

lemma ecStep_length {D V A : Type} (E : Engines D V A) (aOpt : Option A)
    (refCh : Option (List ℚ)) (input : List ℚ) (h : input.length = FRAME_SIZE) :
    (ecStep E aOpt refCh input).2.length = FRAME_SIZE := by
  unfold ecStep
  rcases aOpt with _ | a
  · exact h
  · rcases refCh with _ | rc
    · exact h
    · exact aecApply_length E a input rc h

lemma dnStep_length {D V A : Type} (E : Engines D V A) (dOpt : Option D)
    (temp outInit : List ℚ) (h : outInit.length = FRAME_SIZE) :
    (dnStep E dOpt temp outInit).2.length = FRAME_SIZE := by
  unfold dnStep
  rcases dOpt with _ | d
  · exact h
  · exact toFrame_length _

lemma chanStep_out_length {D V A : Type} (E : Engines D V A) (supp : ℚ) (i : ℕ)
    (refs : Option (List (List ℚ))) (input outInit : List ℚ)
    (dOpt : Option D) (aOpt : Option A) (c : List ℚ × Option D × Option A)
    (h : chanStep E supp i refs input outInit dOpt aOpt = some c) :
    c.1.length = FRAME_SIZE := by
  unfold chanStep at h
  by_cases h1 : input.length = FRAME_SIZE
  · rw [if_pos h1] at h
    by_cases h2 : outInit.length = FRAME_SIZE
    · rw [if_pos h2] at h
      have hc := Option.some.inj h
      rw [← hc]
      simp only [List.length_zipWith]
      rw [ecStep_length E aOpt (refChOf refs i) input h1,
        dnStep_length E dOpt _ outInit h2]
      simp
    · rw [if_neg h2] at h
      exact absurd h (Option.noConfusion)
  · rw [if_neg h1] at h
    exact absurd h (Option.noConfusion)

lemma perChannels_shape {D V A : Type} (E : Engines D V A) (supp : ℚ)
    (refs : Option (List (List ℚ))) :
    ∀ (ins outs : List (List ℚ)) (i0 : ℕ) (ds : List D) (as2 : List A)
      (outs1 : List (List ℚ)) (ds2 : List D) (as3 : List A),
      perChannels E supp refs i0 ins outs ds as2 = some (outs1, ds2, as3) →
      outs1.length = min ins.length outs.length ∧
      ∀ ch ∈ outs1, ch.length = FRAME_SIZE := by
  intro ins
  induction ins with
  | nil =>
    intro outs i0 ds as2 outs1 ds2 as3 h
    unfold perChannels at h
    obtain ⟨h1, _⟩ := Prod.mk.injEq _ _ _ _ |>.mp (Option.some.inj h)
    rw [← h1]
    exact ⟨by simp, fun ch hch => absurd hch (List.not_mem_nil ch)⟩
  | cons inCh ins ih =>
    intro outs i0 ds as2 outs1 ds2 as3 h
    match outs with
    | [] =>
      unfold perChannels at h
      obtain ⟨h1, _⟩ := Prod.mk.injEq _ _ _ _ |>.mp (Option.some.inj h)
      rw [← h1]
      exact ⟨by simp, fun ch hch => absurd hch (List.not_mem_nil ch)⟩
    | outCh :: outs =>
      unfold perChannels at h
      rcases hc : chanStep E supp i0 refs inCh outCh ds.head? as2.head? with _ | c
      · rw [hc] at h; exact absurd h (Option.noConfusion)
      · rw [hc] at h
        obtain ⟨blended, dNew, aNew⟩ := c
        rcases hr : perChannels E supp refs (i0 + 1) ins outs ds.tail as2.tail with _ | r
        · rw [hr] at h; exact absurd h (Option.noConfusion)
        · rw [hr] at h
          obtain ⟨rOuts, rDs, rAs⟩ := r
          obtain ⟨h1, _⟩ := Prod.mk.injEq _ _ _ _ |>.mp (Option.some.inj h)
          obtain ⟨ihlen, ihmem⟩ := ih outs (i0 + 1) ds.tail as2.tail rOuts rDs rAs hr
          rw [← h1]
          constructor
          · simp only [List.length_cons, ihlen]
            omega
          · intro ch hch
            rcases List.mem_cons.mp hch with rfl | hch
            · exact chanStep_out_length E supp i0 refs inCh outCh ds.head? as2.head?
                (ch, dNew, aNew) hc
            · exact ihmem ch hch

lemma xfadeApply_shape : ∀ (ins outs : List (List ℚ)) (cp : ℕ) (w d : ℕ → ℚ),
    (xfadeApply cp w d ins outs).length = min ins.length outs.length ∧
    ∀ ch ∈ xfadeApply cp w d ins outs, ch.length = FRAME_SIZE
  | [], outs, cp, w, d => by
    refine ⟨by simp [xfadeApply], ?_⟩
    intro ch hch
    simp [xfadeApply] at hch
  | a :: as, [], cp, w, d => by
    refine ⟨by simp [xfadeApply], ?_⟩
    intro ch hch
    simp [xfadeApply] at hch
  | a :: as, b :: bs, cp, w, d => by
    have ih := xfadeApply_shape as bs cp w d
    refine ⟨?_, ?_⟩
    · simp only [xfadeApply, List.zipWith_cons_cons, List.length_cons] at *
      rw [ih.1]
      omega
    · intro ch hch
      simp only [xfadeApply, List.zipWith_cons_cons] at hch
      rcases List.mem_cons.mp hch with rfl | hch
      · simp
      · exact ih.2 ch hch

lemma xfadeStage_outs_shape {D V A : Type} (E : Engines D V A)
    (q : VoidProcessor D V A) (ins outs : List (List ℚ))
    (hl : ins.length = outs.length)
    (houts : ∀ ch ∈ outs, ch.length = FRAME_SIZE) :
    (xfadeStage E q ins outs).2.length = outs.length ∧
    ∀ ch ∈ (xfadeStage E q ins outs).2, ch.length = FRAME_SIZE := by
  unfold xfadeStage
  rcases q.bypass_state
  · exact ⟨rfl, houts⟩
  · exact ⟨rfl, houts⟩
  · refine ⟨?_, (xfadeApply_shape ins outs q.crossfade_pos E.xfCos E.xfSin).2⟩
    rw [(xfadeApply_shape ins outs q.crossfade_pos E.xfCos E.xfSin).1, hl]
    simp
  · refine ⟨?_, (xfadeApply_shape ins outs q.crossfade_pos E.xfSin E.xfCos).2⟩
    rw [(xfadeApply_shape ins outs q.crossfade_pos E.xfSin E.xfCos).1, hl]
    simp

lemma analysisStage_outs_shape {D V A : Type} (E : Engines D V A)
    (p : VoidProcessor D V A) (mono : List ℚ) (outs : List (List ℚ)) (thr : ℚ) (dyn : Bool)
    (houts : ∀ ch ∈ outs, ch.length = FRAME_SIZE) :
    (analysisStage E p mono outs thr dyn).2.length = outs.length ∧
    ∀ ch ∈ (analysisStage E p mono outs thr dyn).2, ch.length = FRAME_SIZE := by
  unfold analysisStage
  dsimp only
  split_ifs <;>
    first
      | (constructor
         · rw [(limiter_frame_shape _ _ _ ((applyGateEq_mem_shape _ _ _ _ _ houts).2)).1,
             (applyGateEq_mem_shape _ _ _ _ _ houts).1]
         · exact (limiter_frame_shape _ _ _ ((applyGateEq_mem_shape _ _ _ _ _ houts).2)).2)
      | (constructor
         · exact (applyGateEq_mem_shape _ _ _ _ _ houts).1
         · exact (applyGateEq_mem_shape _ _ _ _ _ houts).2)

lemma processFrame_shape {D V A : Type} (E : Engines D V A) (p : VoidProcessor D V A)
    (inputs outputs : List (List ℚ)) (refs : Option (List (List ℚ)))
    (supp thr : ℚ) (dyn : Bool)
    (hin480 : ∀ ch ∈ inputs, ch.length = FRAME_SIZE)
    (hout480 : ∀ ch ∈ outputs, ch.length = FRAME_SIZE)
    (hlen : inputs.length = outputs.length) :
    ∃ p2 outs2, processFrame E p inputs outputs refs supp thr dyn = some (p2, outs2) ∧
      outs2.length = outputs.length ∧ ∀ ch ∈ outs2, ch.length = FRAME_SIZE := by
  by_cases hm : inputs.length ≠ p.channels ∨ outputs.length ≠ p.channels
  · refine ⟨p, outputs.map (fun ch => List.replicate ch.length 0), ?_, ?_, ?_⟩
    · unfold processFrame
      rw [if_pos hm]
    · simp
    · intro ch hch
      obtain ⟨ch0, hmem, rfl⟩ := List.mem_map.mp hch
      rw [List.length_replicate]
      exact hout480 ch0 hmem
  · push_neg at hm
    obtain ⟨hin, hout⟩ := hm
    obtain ⟨⟨outs1, ds2, as2⟩, hpc⟩ := perChannels_isSome E supp refs inputs outputs 0
      p.denoise p.echo_canceller hin480 hout480
    have hPF := processFrame_eq_of_valid E p inputs outputs refs supp thr dyn
      outs1 ds2 as2 hin hout hpc
    dsimp only at hPF
    obtain ⟨hlen1, hmem1⟩ := perChannels_shape E supp refs inputs outputs 0
      p.denoise p.echo_canceller outs1 ds2 as2 hpc
    have hlen1' : outs1.length = outputs.length := by
      rw [hlen1, hlen]
      simp
    set pA : VoidProcessor D V A := { p with denoise := ds2, echo_canceller := as2 } with hpA
    rcases hbs : pA.bypass_state
    pick_goal 2
    · rw [bypass_match_reduce_bypassed pA (pA, inputs)
        (analysisStage E pA (monoMixOf p.channels outs1) outs1 thr dyn) hbs] at hPF
      rw [xfadeStage_id_of_bypassed E pA inputs inputs hbs] at hPF
      exact ⟨_, _, hPF, hlen.symm ▸ rfl, hin480⟩

    all_goals {
      rw [bypass_match_reduce pA (pA, inputs)
        (analysisStage E pA (monoMixOf p.channels outs1) outs1 thr dyn)
        (by rw [hbs]; intro hco; exact BypassState.noConfusion hco)] at hPF
      obtain ⟨ha1, ha2⟩ := analysisStage_outs_shape E pA (monoMixOf p.channels outs1)
        outs1 thr dyn hmem1
      obtain ⟨hx1, hx2⟩ := xfadeStage_outs_shape E
        (analysisStage E pA (monoMixOf p.channels outs1) outs1 thr dyn).1 inputs
        (analysisStage E pA (monoMixOf p.channels outs1) outs1 thr dyn).2
        (by rw [ha1, hlen1']; exact hlen) ha2
      refine ⟨_, _, hPF, ?_, hx2⟩
      rw [hx1, ha1, hlen1']
    }

lemma pushList_fits (rb : HeapRb) (xs : List ℚ) (h : rb.data.length + xs.length ≤ rb.cap) :
    rb.pushList xs = ⟨rb.cap, rb.data ++ xs⟩ := by
  rw [pushList_take, List.take_of_length_le (by omega)]

lemma processAvailLoop_stop {D V A : Type} (E : Engines D V A) (supp thr : ℚ) (dyn : Bool)
    (fuel : ℕ) (a : FrameAdapter) (p : VoidProcessor D V A)
    (h : a.rb_in.occupied < FRAME_SIZE * 2) :
    processAvailLoop E supp thr dyn fuel a p = some (a, p) := by
  cases fuel with
  | zero => rfl
  | succ n =>
    unfold processAvailLoop
    rw [if_neg (not_le.mpr h)]

lemma popStereoLoop_count : ∀ (n : ℕ) (rb : HeapRb),
    (popStereoLoop n rb).2.2.2 = min n (rb.data.length / 2)
  | 0, rb => by simp [popStereoLoop]
  | n + 1, rb => by
    unfold popStereoLoop
    split_ifs with h
    · have ih := popStereoLoop_count n ⟨rb.cap, rb.data.drop 2⟩
      dsimp only
      rw [ih]
      simp only [List.length_drop]
      omega
    · have ih := popStereoLoop_count n rb
      dsimp only
      rw [ih]
      omega

lemma processAvailLoop_run {D V A : Type} (E : Engines D V A) (supp thr : ℚ) (dyn : Bool) :
    ∀ (k fuel : ℕ) (a : FrameAdapter) (p : VoidProcessor D V A),
    a.rb_in.occupied = FRAME_SIZE * 2 * k →
    k ≤ fuel →
    a.rb_out.occupied + FRAME_SIZE * 2 * k ≤ a.rb_out.cap →
    a.left_out.length = FRAME_SIZE →
    a.right_out.length = FRAME_SIZE →
    ∃ a2 p2, processAvailLoop E supp thr dyn fuel a p = some (a2, p2) ∧
      a2.rb_in.occupied = 0 ∧
      a2.rb_out.occupied = a.rb_out.occupied + FRAME_SIZE * 2 * k ∧
      a2.rb_out.cap = a.rb_out.cap
  | 0, fuel, a, p => by
    intro h0 _ _ _ _
    refine ⟨a, p, processAvailLoop_stop E supp thr dyn fuel a p ?_, ?_, by omega, rfl⟩
    · simp only [frameSize_eq] at h0 ⊢; omega
    · simp only [frameSize_eq] at h0 ⊢; omega
  | k + 1, fuel, a, p => by
    intro hocc hfuel hcap hlo hro
    cases fuel with
    | zero => omega
    | succ m =>
      have hcond : FRAME_SIZE * 2 ≤ a.rb_in.occupied := by
        simp only [frameSize_eq] at hocc ⊢; omega
      have hdatalen : a.rb_in.data.length = FRAME_SIZE * 2 * (k + 1) := hocc
      have htake : (a.rb_in.data.take (FRAME_SIZE * 2)).length = FRAME_SIZE * 2 := by
        rw [List.length_take]
        simp only [frameSize_eq] at hdatalen ⊢
        omega
      have hd := deinterleave_length (a.rb_in.data.take (FRAME_SIZE * 2))
      have hl1 : (deinterleave (a.rb_in.data.take (FRAME_SIZE * 2))).1.length = FRAME_SIZE := by
        rw [hd.1, htake]
        simp only [frameSize_eq]
      have hl2 : (deinterleave (a.rb_in.data.take (FRAME_SIZE * 2))).2.length = FRAME_SIZE := by
        rw [hd.2, htake]
        simp only [frameSize_eq]
      obtain ⟨p2, outs2, hPF, houtlen, hout480⟩ := processFrame_shape E p
        [(deinterleave (a.rb_in.data.take (FRAME_SIZE * 2))).1,
         (deinterleave (a.rb_in.data.take (FRAME_SIZE * 2))).2]
        [a.left_out, a.right_out] none supp thr dyn
        (by
          intro ch hch
          rcases List.mem_cons.mp hch with rfl | hch
          · exact hl1
          rcases List.mem_cons.mp hch with rfl | hch
          · exact hl2
          simp at hch)
        (by
          intro ch hch
          rcases List.mem_cons.mp hch with rfl | hch
          · exact hlo
          rcases List.mem_cons.mp hch with rfl | hch
          · exact hro
          simp at hch)
        rfl
      have h2 : outs2.length = 2 := by rw [houtlen]; rfl
      obtain ⟨o1, o2, rfl⟩ := List.length_eq_two.mp h2
      have ho1 : o1.length = FRAME_SIZE := hout480 o1 (by simp)
      have ho2 : o2.length = FRAME_SIZE := hout480 o2 (by simp)
      have hil : (interleave o1 o2).length = FRAME_SIZE * 2 := by
        rw [interleave_length, ho1, ho2, min_self]
        ring
      have hfit : a.rb_out.pushList (interleave o1 o2)
          = ⟨a.rb_out.cap, a.rb_out.data ++ interleave o1 o2⟩ := by
        apply pushList_fits
        rw [hil]
        simp only [HeapRb.occupied, frameSize_eq] at hcap ⊢
        omega
      have hiter : processAvailLoop E supp thr dyn (m + 1) a p
          = processAvailLoop E supp thr dyn m
              ⟨⟨a.rb_in.cap, a.rb_in.data.drop (FRAME_SIZE * 2)⟩,
               a.rb_out.pushList (interleave o1 o2),
               (deinterleave (a.rb_in.data.take (FRAME_SIZE * 2))).1,
               (deinterleave (a.rb_in.data.take (FRAME_SIZE * 2))).2,
               o1, o2⟩ p2 := by
        conv_lhs => rw [processAvailLoop]
        rw [if_pos hcond]
        dsimp only
        rw [hPF]
        dsimp only [List.getD_cons_zero, List.getD_cons_succ]
      obtain ⟨a2, p3, hrun, hin0, hout2, hcap2⟩ := processAvailLoop_run E supp thr dyn k m
        ⟨⟨a.rb_in.cap, a.rb_in.data.drop (FRAME_SIZE * 2)⟩,
         a.rb_out.pushList (interleave o1 o2),
         (deinterleave (a.rb_in.data.take (FRAME_SIZE * 2))).1,
         (deinterleave (a.rb_in.data.take (FRAME_SIZE * 2))).2,
         o1, o2⟩ p2
        (by
          simp only [HeapRb.occupied, List.length_drop]
          simp only [frameSize_eq] at hdatalen ⊢
          omega)
        (by omega)
        (by
          dsimp only
          rw [hfit]
          simp only [HeapRb.occupied, List.length_append, hil]
          simp only [HeapRb.occupied, frameSize_eq] at hcap ⊢
          omega)
        ho1 ho2
      refine ⟨a2, p3, hiter.trans hrun, hin0, ?_, ?_⟩
      · rw [hout2]
        dsimp only
        rw [hfit]
        simp only [HeapRb.occupied, List.length_append, hil]
        simp only [frameSize_eq]
        omega
      · rw [hcap2]
        dsimp only
        rw [hfit]

/-- C8 (amended): `FrameAdapter` processes only whole frames, but its ring
buffers hold at most `FRAME_SIZE * 4 * 2 = 3840` samples (4 stereo frames)
and `try_push` silently drops anything beyond that. Pushing fewer than one
full stereo frame (fewer than 480 pairs) into a fresh adapter and calling
`process_available` leaves the output ring empty and draining pops zero
pairs; pushing exactly `N ≤ 4` full stereo frames and then processing and
draining yields exactly `N` processed frames (`FRAME_SIZE * N` popped
pairs). The original claim's "for every N" fails at `N = 5`: see the
counterexample. -/
theorem c8_frame_adapter_whole_frames {D V A : Type} (E : Engines D V A)
    (p : VoidProcessor D V A) (supp thr : ℚ) (dyn : Bool)
    (left right : List ℚ) (N : ℕ) :
    (min left.length right.length < FRAME_SIZE →
      ∃ a2 p2, (FrameAdapter.new.pushStereoInterleaved left right).processAvailable
          E p supp thr dyn = some (a2, p2) ∧
        a2.rb_out.occupied = 0 ∧ (a2.popStereo FRAME_SIZE).2.2.2 = 0) ∧
    (N ≤ 4 → left.length = FRAME_SIZE * N → right.length = FRAME_SIZE * N →
      ∃ a2 p2, (FrameAdapter.new.pushStereoInterleaved left right).processAvailable
          E p supp thr dyn = some (a2, p2) ∧
        a2.rb_out.occupied = FRAME_SIZE * 2 * N ∧
        (a2.popStereo (FRAME_SIZE * N)).2.2.2 = FRAME_SIZE * N) := by
  constructor
  · intro hmin
    have hocc : (FrameAdapter.new.pushStereoInterleaved left right).rb_in.occupied
        < FRAME_SIZE * 2 := by
      show (FrameAdapter.new.rb_in.pushList (interleave left right)).occupied < FRAME_SIZE * 2
      rw [pushList_take]
      simp only [HeapRb.occupied, List.length_append, List.length_take, interleave_length]
      simp only [frameSize_eq] at hmin ⊢
      have hd : (FrameAdapter.new.rb_in.data).length = 0 := rfl
      omega
    refine ⟨FrameAdapter.new.pushStereoInterleaved left right, p,
      processAvailLoop_stop E supp thr dyn _ _ p hocc, rfl, ?_⟩
    show (popStereoLoop FRAME_SIZE
      (FrameAdapter.new.pushStereoInterleaved left right).rb_out).2.2.2 = 0
    rw [popStereoLoop_count]
    have hd : (FrameAdapter.new.pushStereoInterleaved left right).rb_out.data.length = 0 := rfl
    rw [hd]
    omega
  · intro hN hll hrl
    have hil : (interleave left right).length = FRAME_SIZE * 2 * N := by
      rw [interleave_length, hll, hrl, min_self]
      ring
    have hfit : FrameAdapter.new.rb_in.pushList (interleave left right)
        = ⟨FrameAdapter.new.rb_in.cap, FrameAdapter.new.rb_in.data ++ interleave left right⟩ := by
      apply pushList_fits
      rw [hil]
      show ([] : List ℚ).length + FRAME_SIZE * 2 * N ≤ FRAME_SIZE * 4 * 2
      simp only [List.length_nil, frameSize_eq]
      omega
    have hocc2 : (FrameAdapter.new.pushStereoInterleaved left right).rb_in.occupied
        = FRAME_SIZE * 2 * N := by
      show (FrameAdapter.new.rb_in.pushList (interleave left right)).occupied = _
      rw [hfit]
      simp only [HeapRb.occupied, List.length_append, hil]
      show ([] : List ℚ).length + FRAME_SIZE * 2 * N = FRAME_SIZE * 2 * N
      simp
    obtain ⟨a2, p2, hrun, hin0, hout2, hcap2⟩ := processAvailLoop_run E supp thr dyn N
      (FrameAdapter.new.pushStereoInterleaved left right).rb_in.occupied
      (FrameAdapter.new.pushStereoInterleaved left right) p hocc2
      (by rw [hocc2]; simp only [frameSize_eq]; omega)
      (by
        show ([] : List ℚ).length + FRAME_SIZE * 2 * N ≤ FRAME_SIZE * 4 * 2
        simp only [List.length_nil, frameSize_eq]
        omega)
      (by show (List.replicate FRAME_SIZE (0 : ℚ)).length = FRAME_SIZE; simp)
      (by show (List.replicate FRAME_SIZE (0 : ℚ)).length = FRAME_SIZE; simp)
    have hout2' : a2.rb_out.occupied = FRAME_SIZE * 2 * N := by
      rw [hout2]
      show ([] : List ℚ).length + FRAME_SIZE * 2 * N = FRAME_SIZE * 2 * N
      simp
    refine ⟨a2, p2, hrun, hout2', ?_⟩
    show (popStereoLoop (FRAME_SIZE * N) a2.rb_out).2.2.2 = FRAME_SIZE * N
    rw [popStereoLoop_count]
    have hlen2 : a2.rb_out.data.length = FRAME_SIZE * 2 * N := hout2'
    rw [hlen2]
    simp only [frameSize_eq]
    omega

/-- Closed instance of C8: a fresh adapter given 100 interleaved stereo
pairs (less than one frame) produces no output, and one full 480-pair
stereo frame is processed into exactly one output frame. -/
theorem c8_frame_adapter_whole_frames_witness :
    (∃ a2 p2, (FrameAdapter.new.pushStereoInterleaved (List.replicate 100 0)
        (List.replicate 100 0)).processAvailable engU procU2 0 0 false = some (a2, p2) ∧
      a2.rb_out.occupied = 0 ∧ (a2.popStereo FRAME_SIZE).2.2.2 = 0) ∧
    (∃ a2 p2, (FrameAdapter.new.pushStereoInterleaved (List.replicate 480 0)
        (List.replicate 480 0)).processAvailable engU procU2 0 0 false = some (a2, p2) ∧
      a2.rb_out.occupied = FRAME_SIZE * 2 * 1 ∧
      (a2.popStereo (FRAME_SIZE * 1)).2.2.2 = FRAME_SIZE * 1) :=
  ⟨(c8_frame_adapter_whole_frames engU procU2 0 0 false
      (List.replicate 100 0) (List.replicate 100 0) 1).1
      (by simp only [List.length_replicate, min_self, frameSize_eq]; omega),
   (c8_frame_adapter_whole_frames engU procU2 0 0 false
      (List.replicate 480 0) (List.replicate 480 0) 1).2 (by omega)
      (by simp only [List.length_replicate, frameSize_eq])
      (by simp only [List.length_replicate, frameSize_eq])⟩

/-- Counterexample to C8 as stated ("for every N"): pushing 5 full stereo
frames (2400 pairs) into a fresh adapter overflows the 3840-sample input
ring, `try_push` drops the last frame, and processing plus draining yields
only 4 frames (1920 pairs), not 5. -/
theorem c8_counterexample :
    ∃ a2 p2,
      (FrameAdapter.new.pushStereoInterleaved (List.replicate (FRAME_SIZE * 5) 0)
          (List.replicate (FRAME_SIZE * 5) 0)).processAvailable engU procU2 0 0 false
        = some (a2, p2) ∧
      (a2.popStereo (FRAME_SIZE * 5)).2.2.2 = FRAME_SIZE * 4 ∧
      FRAME_SIZE * 4 ≠ FRAME_SIZE * 5 := by
  have hpush : FrameAdapter.new.rb_in.pushList
      (interleave (List.replicate (FRAME_SIZE * 5) 0) (List.replicate (FRAME_SIZE * 5) 0))
      = ⟨FRAME_SIZE * 4 * 2, List.replicate (FRAME_SIZE * 4 * 2) 0⟩ := by
    rw [interleave_replicate, pushList_take]
    show (⟨FRAME_SIZE * 4 * 2,
      [] ++ (List.replicate (2 * (FRAME_SIZE * 5)) (0 : ℚ)).take (FRAME_SIZE * 4 * 2 - 0)⟩
        : HeapRb) = _
    rw [List.nil_append, List.take_replicate]
    have : min (FRAME_SIZE * 4 * 2 - 0) (2 * (FRAME_SIZE * 5)) = FRAME_SIZE * 4 * 2 := by
      simp only [frameSize_eq]; omega
    rw [this]
  have hocc : (FrameAdapter.new.pushStereoInterleaved (List.replicate (FRAME_SIZE * 5) 0)
      (List.replicate (FRAME_SIZE * 5) 0)).rb_in.occupied = FRAME_SIZE * 2 * 4 := by
    simp only [FrameAdapter.pushStereoInterleaved]
    rw [hpush]
    simp only [HeapRb.occupied, List.length_replicate, frameSize_eq]
  obtain ⟨a2, p2, hrun, hin0, hout2, hcap2⟩ := processAvailLoop_run engU 0 0 false 4
    (FrameAdapter.new.pushStereoInterleaved (List.replicate (FRAME_SIZE * 5) 0)
      (List.replicate (FRAME_SIZE * 5) 0)).rb_in.occupied
    (FrameAdapter.new.pushStereoInterleaved (List.replicate (FRAME_SIZE * 5) 0)
      (List.replicate (FRAME_SIZE * 5) 0)) procU2 hocc
    (by rw [hocc]; simp only [frameSize_eq]; omega)
    (by
      show ([] : List ℚ).length + FRAME_SIZE * 2 * 4 ≤ FRAME_SIZE * 4 * 2
      simp only [List.length_nil, frameSize_eq]
      omega)
    (by show (List.replicate FRAME_SIZE (0 : ℚ)).length = FRAME_SIZE; simp)
    (by show (List.replicate FRAME_SIZE (0 : ℚ)).length = FRAME_SIZE; simp)
  refine ⟨a2, p2, hrun, ?_, by simp only [frameSize_eq]; omega⟩
  show (popStereoLoop (FRAME_SIZE * 5) a2.rb_out).2.2.2 = FRAME_SIZE * 4
  rw [popStereoLoop_count]
  have hlen2 : a2.rb_out.data.length
      = (FrameAdapter.new.pushStereoInterleaved (List.replicate (FRAME_SIZE * 5) 0)
          (List.replicate (FRAME_SIZE * 5) 0)).rb_out.occupied + FRAME_SIZE * 2 * 4 := hout2
  have hz : (FrameAdapter.new.pushStereoInterleaved (List.replicate (FRAME_SIZE * 5) 0)
      (List.replicate (FRAME_SIZE * 5) 0)).rb_out.occupied = 0 := rfl
  rw [hz] at hlen2
  rw [hlen2]
  simp only [frameSize_eq]
  omega
